import Mathlib

/-! DEM-Engine demo drivers: control logic of `DEMdemo_Granular_Flow` and
`DEMdemo_MooringBoxMotion`.

A shallow embedding of the two `main` functions under `src/demo`.  Only the driver's
control flow is embedded: the solver (`DEMSolver`), the sampler (`PDSampler`) and the
inspectors are collaborators whose calls are recorded, in program order, in a trace.

Conventions.
* `int` values are mathematical integers (`Int`). Signed overflow is not modelled: the
  embedding describes the runs in which every `int` expression stays within `int` (`InInt`),
  and the theorems on the triggers that range over every `timeOut` take this as a
  hypothesis. `%` on `int` is the truncated remainder `Int.tmod`, and a zero divisor aborts
  the run.
* `unsigned int` values are naturals reduced modulo `2 ^ 32`.
* A `float` or `double` value is the rational number it stands for. Floating-point
  operations round, so they are not computed here: the `float` sum and the `double`
  quotient the driver evaluates are supplied by the `World`, and theorems hold for every
  such operation.
-/

namespace GranularFlow

/-! ## Calls recorded in the trace -/

/-- The duration argument of `DoDynamicsThenSync`, as written in the source. -/
inductive Duration where
  | zero
  | settle_frame_time
  deriving DecidableEq, Repr

/-- The file-name pattern handed to `WriteSphereFile` / `WriteMeshFile`. -/
inductive FileKind where
  | funnel
  | settling
  | output
  | mesh
  deriving DecidableEq, Repr

/-- A sampled insertion point (`float3`). -/
abbrev Point := ℚ × ℚ × ℚ

/-- Calls made by `main` on the solver, the sampler and the inspector. Templates are
identified by their position of creation. -/
inductive Call where
  | ClearCache
  | SampleBox (points : List Point)
  | AddClumps (types : List Nat) (xyz : List Point)
  | UpdateClumps
  | GetNumClumps
  | GetMaxZ
  | WriteSphereFile (kind : FileKind) (index : Int)
  | WriteMeshFile (kind : FileKind) (index : Int)
  | DoDynamicsThenSync (dt : Duration)
  | DoDynamics
  | ChangeFamily (src dst : Nat)
  deriving DecidableEq, Repr

/-! ## Production loop (source lines 285-319) -/

/-- Local variables of the production loop that change while it runs, together with the
trace of calls; every call is tagged with the step index `i` of its iteration. -/
structure ProdState where
  frame : Int
  status : Bool
  stopGate : Bool
  trace : List (Int × Call)
  deriving DecidableEq, Repr

/-- State on entry to the production loop: `frame = 0; status = true; stopGate = true`. -/
def prodInit : ProdState :=
  { frame := 0, status := true, stopGate := true, trace := [] }

/-- The output block `if (!(i % timeOut) || i == 0) { ... frame++; }`. -/
def outputBlock (timeOut i : Int) (s : ProdState) : ProdState :=
  if Int.tmod i timeOut = 0 ∨ i = 0 then
    { s with
      trace := s.trace ++ [(i, Call.WriteMeshFile FileKind.mesh s.frame),
                           (i, Call.WriteSphereFile FileKind.output s.frame)]
      frame := s.frame + 1 }
  else s

/-- The values of the type `int`: `-2^31 ≤ x < 2^31`. -/
@[reducible] def InInt (x : Int) : Prop := -2 ^ 31 ≤ x ∧ x < 2 ^ 31

/-- The gate-opening block `if ((i > (timeOut * 2)) && status) { ... status = false; }`.
`timeOut * 2` is the exact product: it is the value of the code's `int` product as long as
`InInt (timeOut * 2)`. -/
def openBlock (timeOut i : Int) (s : ProdState) : ProdState :=
  if i > timeOut * 2 ∧ s.status = true then
    { s with
      trace := s.trace ++ [(i, Call.DoDynamicsThenSync Duration.zero),
                           (i, Call.ChangeFamily 10 1), (i, Call.ChangeFamily 3 4)]
      status := false }
  else s

/-- The gate-stop block
`if ((i >= (timeOut * (2) + gateMotion - 1)) && stopGate) { ... stopGate = false; }`.
The threshold is the exact value: it is the value of the code's `int` expression as long as
`timeOut * 2`, `timeOut * 2 + gateMotion` and `timeOut * 2 + gateMotion - 1` are `InInt`. -/
def stopBlock (timeOut gateMotion i : Int) (s : ProdState) : ProdState :=
  if i ≥ timeOut * 2 + gateMotion - 1 ∧ s.stopGate = true then
    { s with
      trace := s.trace ++ [(i, Call.DoDynamicsThenSync Duration.zero),
                           (i, Call.ChangeFamily 4 3)]
      stopGate := false }
  else s

/-- One iteration of the loop body at step index `i`. `DoDynamics(timeStep)` comes first;
then `i % timeOut` is evaluated, which aborts the run (`Except.error`, carrying the state
reached) when `timeOut` is zero. -/
def prodBody (timeOut gateMotion i : Int) (s : ProdState) : Except ProdState ProdState :=
  let s1 := { s with trace := s.trace ++ [(i, Call.DoDynamics)] }
  if timeOut = 0 then Except.error s1
  else Except.ok (stopBlock timeOut gateMotion i (openBlock timeOut i (outputBlock timeOut i s1)))

/-- The iterations `i, i+1, ..., i+n-1` of the loop, started in state `s`. -/
def prodFrom (timeOut gateMotion : Int) : Nat → Int → ProdState → Except ProdState ProdState
  | 0, _, s => Except.ok s
  | n + 1, i, s =>
    match prodBody timeOut gateMotion i s with
    | Except.ok s' => prodFrom timeOut gateMotion n (i + 1) s'
    | Except.error e => Except.error e

/-- The loop `for (int i = 0; i < numStep; i++) { ... }`: it runs the body for
`i = 0, ..., numStep - 1`, that is `numStep.toNat` times. -/
def production (timeOut gateMotion numStep : Int) : Except ProdState ProdState :=
  prodFrom timeOut gateMotion numStep.toNat 0 prodInit

/-- The final state of a run, completed or aborted. -/
def reached : Except ProdState ProdState → ProdState
  | Except.ok s => s
  | Except.error s => s

/-- How many times `c` was called in a tagged trace. -/
def calls (c : Call) (t : List (Int × Call)) : Nat :=
  (t.map Prod.snd).count c

/-- The step indices at which `c` was called. -/
def stepsOf (c : Call) (t : List (Int × Call)) : List Int :=
  (t.filter (fun e => e.2 = c)).map Prod.fst

/-- The body with the remainder defined (`timeOut ≠ 0`). -/
def prodStep (timeOut gateMotion i : Int) (s : ProdState) : ProdState :=
  stopBlock timeOut gateMotion i (openBlock timeOut i
    (outputBlock timeOut i { s with trace := s.trace ++ [(i, Call.DoDynamics)] }))

/-- The iterations `i, ..., i+n-1` with the remainder defined. -/
def prodRun (timeOut gateMotion : Int) : Nat → Int → ProdState → ProdState
  | 0, _, s => s
  | n + 1, i, s => prodRun timeOut gateMotion n (i + 1) (prodStep timeOut gateMotion i s)

/-- The calls the body adds at step `i`, read off the three blocks. -/
def stepEvents (T G i : Int) (s : ProdState) : List (Int × Call) :=
  [(i, Call.DoDynamics)]
  ++ (if Int.tmod i T = 0 ∨ i = 0 then
        [(i, Call.WriteMeshFile FileKind.mesh s.frame),
         (i, Call.WriteSphereFile FileKind.output s.frame)] else [])
  ++ (if i > T * 2 ∧ s.status = true then
        [(i, Call.DoDynamicsThenSync Duration.zero),
         (i, Call.ChangeFamily 10 1), (i, Call.ChangeFamily 3 4)] else [])
  ++ (if i ≥ T * 2 + G - 1 ∧ s.stopGate = true then
        [(i, Call.DoDynamicsThenSync Duration.zero), (i, Call.ChangeFamily 4 3)] else [])

/-- Steps at which a block guarded by a one-shot flag runs during the iterations
`i, ..., i+n-1`, for a threshold `i > thr`: the first such step, if the flag is still set. -/
def firing (flag : Bool) (thr i : Int) (n : Nat) : List Int :=
  if flag = true ∧ 0 < n ∧ thr + 1 < i + n then [max i (thr + 1)] else []

/-! ## Staged generation loop (source lines 172-265) -/

/-- Conversion of an `int` to `unsigned int`: reduction modulo `2 ^ 32`. -/
def toUInt (x : Int) : Nat := (x % 2 ^ 32).toNat

/-- The template pool built by `for (int i = 0; i < num_template; i++)
{ ... clump_types.push_back(clump_ptr); }` (lines 128-170): one template per iteration,
named by its position of creation. -/
def clump_types (num_template : Int) : List Nat := List.range num_template.toNat

/-- The iterations `i, i+1, ..., i+n-1` of the template assignment loop: each pushes
`pool.at(i % num_template)`, where the `int num_template` is converted to `unsigned int`
for the remainder. `none` when the divisor is zero or `at` is out of range. -/
def assignFrom (pool : List Nat) (num_template : Int) : Nat → Nat → Option (List Nat)
  | 0, _ => some []
  | n + 1, i =>
    if toUInt num_template = 0 then none
    else
      match pool.get? (i % toUInt num_template) with
      | none => none
      | some t => (assignFrom pool num_template n (i + 1)).map (fun rest => t :: rest)

/-- The loop `for (unsigned int i = actualTotalSpheres; i < actualTotalSpheres + num_clumps; i++)
input_pile_template_type.push_back(clump_types.at(i % num_template));` (lines 223-225).
The bound is an `unsigned int` sum, so it wraps modulo `2 ^ 32`; the loop runs for
`i = actualTotalSpheres, ..., bound - 1`, which is no iteration when `bound ≤ actualTotalSpheres`. -/
def assignTemplates (pool : List Nat) (num_template : Int)
    (actualTotalSpheres num_clumps : Nat) : Option (List Nat) :=
  assignFrom pool num_template
    ((actualTotalSpheres + num_clumps) % 2 ^ 32 - actualTotalSpheres) actualTotalSpheres

/-- The constants of `main` that the staged loop reads. The demo has `totalSpheres = 400000`,
`num_template = 1`, `float plane_bottom = 0.01f`, `double emitterZ = 0.80`,
`float settle_frame_time = 0.01` and `float shift_xyz` twice the largest template radius.
A floating-point variable holds the rational number its value denotes. -/
structure Params where
  totalSpheres : Int
  num_template : Int
  plane_bottom : ℚ
  shift_xyz : ℚ
  emitterZ : ℚ
  settle_frame_time : ℚ

/-- What the loop takes from outside. The collaborators whose results steer it, indexed by
the stage (the number of loop iterations already completed): the points returned by
`sampler.SampleBox` and the value of `max_z_finder->GetValue()` assigned to `plane_bottom`.
And the two rounded floating-point operations its control flow goes through, which are not
computed here but supplied: `floatAdd a b`, the `float` value of the sum `a + b` of two
`float`s, and `doubleDiv a b`, the `double` value of the quotient `a / b` of two `double`s.
The theorems hold for every choice of these functions. -/
structure World where
  sample : Nat → List Point
  maxZ : Nat → ℚ
  floatAdd : ℚ → ℚ → ℚ
  doubleDiv : ℚ → ℚ → ℚ

/-- Variables of the staged loop, the solver's clump count, the stage index and the trace;
every call is tagged with the stage in which it is made. -/
structure FillState where
  plane_bottom : ℚ
  frame : Int
  actualTotalSpheres : Nat
  initialization : Bool
  numClumps : Nat
  stage : Nat
  trace : List (Nat × Call)

/-- State on entry to `while (initialization)`. -/
def fillInit (p : Params) : FillState :=
  { plane_bottom := p.plane_bottom, frame := 0, actualTotalSpheres := 0,
    initialization := true, numClumps := 0, stage := 0, trace := [] }

/-- Append calls of the current stage to the trace. -/
def FillState.log (s : FillState) (cs : List Call) : FillState :=
  { s with trace := s.trace ++ cs.map (fun c => (s.stage, c)) }

/-- The test `(plane_bottom + shift_xyz > emitterZ) ? false : true` of line 206: the `float`
sum of the two `float`s, converted to `double` (which does not change its value) and
compared with the `double emitterZ`. -/
def generate (p : Params) (w : World) (s : FillState) : Bool :=
  if w.floatAdd s.plane_bottom p.shift_xyz > p.emitterZ then false else true

/-- Modelled from the spec: the solver operations "insert instances with (template,
position, velocity, family)" and "query total instance count" of §6, whose code
(`DEMSolver::AddClumps`, `GetNumClumps`) is not part of the demo sources. One instance is
inserted per (template, position) pair, so the two lists must have the same length; the
instance count grows by that length. -/
def solverAddClumps (numClumps : Nat) (types : List Nat) (xyz : List Point) : Option Nat :=
  if types.length = xyz.length then some (numClumps + xyz.length) else none

/-- The block `if (generate) { ... }` of lines 208-238: sample, assign templates, add the
clumps and read back the clump count, `actualTotalSpheres = (int)DEMSim.GetNumClumps()`
(the count reduced modulo `2 ^ 32`). -/
def generateBlock (p : Params) (w : World) (s : FillState) : Except FillState FillState :=
  let heap_particles_xyz := w.sample s.stage
  let s1 := s.log [Call.SampleBox heap_particles_xyz]
  let num_clumps := heap_particles_xyz.length % 2 ^ 32
  match assignTemplates (clump_types p.num_template) p.num_template
      s.actualTotalSpheres num_clumps with
  | none => Except.error s1
  | some input_pile_template_type =>
    let s2 := s1.log [Call.AddClumps input_pile_template_type heap_particles_xyz]
    match solverAddClumps s.numClumps input_pile_template_type heap_particles_xyz with
    | none => Except.error s2
    | some n =>
      let s3 := s2.log [Call.UpdateClumps, Call.GetNumClumps, Call.GetNumClumps]
      Except.ok { s3 with numClumps := n, actualTotalSpheres := n % 2 ^ 32 }

/-- The value of the `double` literal `0.4`. -/
def double04 : ℚ := 3602879701896397 / 9007199254740992

/-- The conversion `(int)x` of a `double`: the value with its fractional part discarded
(truncation toward zero). -/
def truncate (x : ℚ) : Int := Int.tdiv x.num x.den

/-- The bound `(int)(0.4 / settle_frame_time)` of the consolidation loop: the `float` divisor
is converted to `double` (which does not change its value), the quotient is the `double`
division of the literal `0.4` by it, and the conversion to `int` truncates. `none` when the
conversion is undefined: the divisor is zero (the quotient is then not a finite number) or
the truncated quotient is not an `int` value. -/
def consolidationSteps (w : World) (settle_frame_time : ℚ) : Option Int :=
  if settle_frame_time = 0 then none
  else
    let n := truncate (w.doubleDiv double04 settle_frame_time)
    if InInt n then some n else none

/-- The calls of `for (int i = 0; i < N; i++) { DoDynamicsThenSync(settle_frame_time);
WriteSphereFile(..settling_i..); }` for `i = start, ..., start + n - 1` (lines 258-263). -/
def consolidation : Nat → Int → List Call
  | 0, _ => []
  | n + 1, i =>
    Call.DoDynamicsThenSync Duration.settle_frame_time
      :: Call.WriteSphereFile FileKind.settling i :: consolidation n (i + 1)

/-- The part of the loop body after the generation block (lines 239-264). The bound of the
consolidation loop is the same value at each of its tests; the run aborts where that bound
is undefined. -/
def settleBlock (p : Params) (w : World) (gen : Bool) (s : FillState) :
    Except FillState FillState :=
  let s1 := s.log [Call.GetMaxZ]
  let s2 := { s1 with
    initialization := if s1.actualTotalSpheres < toUInt p.totalSpheres then true else false }
  let s3 := if gen = true then
      { (s2.log [Call.WriteSphereFile FileKind.settling s2.frame]) with frame := s2.frame + 1 }
    else s2
  let s4 := s3.log [Call.DoDynamicsThenSync Duration.settle_frame_time]
  let s5 := { (s4.log [Call.GetMaxZ]) with plane_bottom := w.maxZ s.stage }
  if s5.initialization = false then
    match consolidationSteps w p.settle_frame_time with
    | none => Except.error s5
    | some N => Except.ok (s5.log (consolidation N.toNat 0))
  else Except.ok s5

/-- One pass of the body of `while (initialization)`: a stage. -/
def stage (p : Params) (w : World) (s : FillState) : Except FillState FillState :=
  let s0 := s.log [Call.ClearCache]
  let gen := generate p w s0
  match (if gen = true then generateBlock p w s0 else Except.ok s0) with
  | Except.error e => Except.error e
  | Except.ok s1 =>
    match settleBlock p w gen s1 with
    | Except.error e => Except.error e
    | Except.ok s2 => Except.ok { s2 with stage := s.stage + 1 }

/-- How a bounded run of the loop ends: the loop exited (`done`), the program aborted
(`fault`), or the stage budget ran out with the loop still going (`unfinished`). -/
inductive Outcome where
  | done (s : FillState)
  | fault (s : FillState)
  | unfinished (s : FillState)

/-- The loop `while (initialization) { ... }`, run for at most `fuel` stages. -/
def fillLoop (p : Params) (w : World) : Nat → FillState → Outcome
  | fuel, s =>
    if s.initialization = false then Outcome.done s
    else
      match fuel with
      | 0 => Outcome.unfinished s
      | fuel + 1 =>
        match stage p w s with
        | Except.error e => Outcome.fault e
        | Except.ok s' => fillLoop p w fuel s'

/-- The sizes of the batches handed to `AddClumps`, in order. -/
def insertions (t : List (Nat × Call)) : List Nat :=
  t.filterMap (fun e => match e.2 with
    | Call.AddClumps _ xyz => some xyz.length
    | _ => none)

/-- The number of points the sampler has returned in the stages `0, ..., k-1`. -/
def placed (w : World) : Nat → Nat
  | 0 => 0
  | k + 1 => placed w k + (w.sample k).length

/-- How many `DoDynamicsThenSync(settle_frame_time)` calls the trace holds for stage `j`. -/
def settleCalls (j : Nat) (t : List (Nat × Call)) : Nat :=
  t.count (j, Call.DoDynamicsThenSync Duration.settle_frame_time)

/-- The calls made between the two loops (lines 267-287): one `WriteMeshFile(meshfile)`,
with `meshfile` still naming the funnel snapshot of frame 0. -/
def interlude : List Call := [Call.WriteMeshFile FileKind.funnel 0]

/-- The value of the `float` nearest to `0.01` (`0.01f`, and `float x = 0.01`). -/
def float001 : ℚ := 5368709 / 536870912

/-- The value of the `float` nearest to `0.1`. -/
def float01 : ℚ := 13421773 / 134217728

/-- The value of the `double` literal `0.80`. -/
def double080 : ℚ := 3602879701896397 / 4503599627370496

/-- The demo's constants, for a run in which `shift_xyz` (twice the largest of the randomly
drawn template radii) is `2 ^ -8`. -/
def demoParams : Params :=
  { totalSpheres := 400000, num_template := 1, plane_bottom := float001,
    shift_xyz := 1 / 256, emitterZ := double080, settle_frame_time := float001 }

/-- IEEE division of `double`s at the one pair of operands the demo divides,
`0.4 / (double)0.01f`, whose quotient rounds to the `double` `5629499660042243 / 2 ^ 47`;
the exact quotient at every other pair. -/
def demoDiv (a b : ℚ) : ℚ :=
  if a = double04 ∧ b = float001 then 5629499660042243 / 140737488355328 else a / b

/-- Collaborators of an exhausted fill region: every sample holds ten points and the
maximum height always reads `1`, above `emitterZ`. The sums the run forms, `0.01f + 2 ^ -8`
and `1 + 2 ^ -8`, are `float` values, so `floatAdd` is the exact sum. -/
def exhaustedWorld : World :=
  { sample := fun _ => List.replicate 10 (0, 0, 0), maxZ := fun _ => 1,
    floatAdd := fun a b => a + b, doubleDiv := demoDiv }

/-- Scenario B: target 50, one template, spacing 1. -/
def scenarioB : Params :=
  { totalSpheres := 50, num_template := 1, plane_bottom := 1 / 128,
    shift_xyz := 1, emitterZ := 100, settle_frame_time := float001 }

/-- Scenario B's collaborators: the region holds 20 points in every stage and the pile
stays below the emitter. The sums the run forms, `2 ^ -7 + 1` and `0.5 + 1`, are `float`
values, so `floatAdd` is the exact sum. -/
def worldB : World :=
  { sample := fun _ => List.replicate 20 (0, 0, 0), maxZ := fun _ => 1 / 2,
    floatAdd := fun a b => a + b, doubleDiv := demoDiv }

/-- Three templates and ten points per stage, the pile staying below the emitter. -/
def threeTemplates : Params := { demoParams with num_template := 3 }

/-- Collaborators for `threeTemplates`: ten points in every stage, maximum height `0.5`
(`0.5 + 2 ^ -8` is a `float` value). -/
def worldTen : World :=
  { sample := fun _ => List.replicate 10 (0, 0, 0), maxZ := fun _ => 1 / 2,
    floatAdd := fun a b => a + b, doubleDiv := demoDiv }

/-- What holds on entry to stage `j` when every stage so far was a generating stage:
the counters equal the number of points sampled so far, the fill level is below the
ceiling and one batch was inserted per stage. -/
def FillInv (p : Params) (w : World) (j : Nat) (s : FillState) : Prop :=
  s.stage = j ∧ s.actualTotalSpheres = placed w j ∧ s.numClumps = placed w j ∧
  ¬ (w.floatAdd s.plane_bottom p.shift_xyz > p.emitterZ) ∧ s.frame = j ∧
  insertions s.trace = (List.range j).map (fun k => (w.sample k).length)

/-- The calls of `n` consecutive stages that do not generate and do not reach the target,
starting with stage `k`. -/
def ceilingStages : Nat → Nat → List (Nat × Call)
  | 0, _ => []
  | n + 1, k =>
    [(k, Call.ClearCache), (k, Call.GetMaxZ),
      (k, Call.DoDynamicsThenSync Duration.settle_frame_time), (k, Call.GetMaxZ)]
    ++ ceilingStages n (k + 1)

/-! ## Families of the gate scenario -/

/-- Modelled from the spec: the family remap of §4.2, whose code (`DEMSolver::ChangeFamily`)
is not part of the demo sources. `ChangeFamily(src, dst)` moves every body of family `src`
to family `dst`; no other call changes a family. -/
def familyStep (fam : Nat) : Call → Nat
  | Call.ChangeFamily src dst => if fam = src then dst else fam
  | _ => fam

/-- The family, after the calls of a trace, of a body that started in family `fam`. -/
def familyAfter (fam : Nat) (t : List (Int × Call)) : Nat :=
  (t.map Prod.snd).foldl familyStep fam

/-- The number of `DoDynamics(timeStep)` calls in a list of calls that are made while a
body that starts in family `fam` is in family 4 (`SetFamilyPrescribedLinVel(4, ...)`). -/
def drivenFrom (fam : Nat) : List Call → Nat
  | [] => 0
  | c :: t => (if c = Call.DoDynamics ∧ fam = 4 then 1 else 0) + drivenFrom (familyStep fam c) t

/-- The number of `DoDynamics(timeStep)` calls of a trace made while the gate, which starts
in family 3 (`gate->SetFamily(3)`), is in the prescribed-velocity family 4. -/
def drivenSteps (t : List (Int × Call)) : Nat :=
  drivenFrom 3 (t.map Prod.snd)

/-! ## Snapshots of the production loop -/

/-- The sphere snapshots `WriteSphereFile(..DEMdemo_output_%04d.csv..)` of a trace, each as
(step index of the iteration, frame number in the file name), in order. -/
def sphereFrames (t : List (Int × Call)) : List (Int × Int) :=
  t.filterMap (fun e => match e.2 with
    | Call.WriteSphereFile FileKind.output f => some (e.1, f)
    | _ => none)

/-- The mesh snapshots `WriteMeshFile(..DEMdemo_mesh_%04d.vtk..)` of a trace, each as
(step index of the iteration, frame number in the file name), in order. -/
def meshFrames (t : List (Int × Call)) : List (Int × Int) :=
  t.filterMap (fun e => match e.2 with
    | Call.WriteMeshFile FileKind.mesh f => some (e.1, f)
    | _ => none)

/-- The snapshots of a cadence `T` with frame numbers `0, ..., n-1`: frame `j` at step `j*T`. -/
def cadenceFrames (T : Int) (n : Nat) : List (Int × Int) :=
  (List.range n).map (fun j : Nat => ((j : Int) * T, (j : Int)))

/-! ## Boundary conditions and order of the gate triggers -/

/-- The boundary conditions the demo registers. -/
inductive Boundary where
  | Fixed
  | PrescribedLinVel
  | Unconstrained
  deriving DecidableEq, Repr

/-- The registrations of lines 112-115: `SetFamilyFixed(1)`, `SetFamilyFixed(3)`,
`SetFamilyPrescribedLinVel(4, ...)`, `SetFamilyPrescribedLinVel(10, ...)`; a family that is
not registered is left to the solver. -/
def boundaryOf (fam : Nat) : Boundary :=
  if fam = 1 ∨ fam = 3 then Boundary.Fixed
  else if fam = 4 ∨ fam = 10 then Boundary.PrescribedLinVel
  else Boundary.Unconstrained

/-- Scanning for the first gate reassignment: `none` while neither `ChangeFamily(3,4)` nor
`ChangeFamily(4,3)` was seen, then `some true` if the opening call came first and
`some false` if the stop call did. -/
def firstGateStep (st : Option Bool) (c : Call) : Option Bool :=
  match st with
  | some b => some b
  | none =>
    if c = Call.ChangeFamily 3 4 then some true
    else if c = Call.ChangeFamily 4 3 then some false
    else none

/-- Which of `ChangeFamily(3,4)` and `ChangeFamily(4,3)` is called first in a trace. -/
def firstGateCall (t : List (Int × Call)) : Option Bool :=
  (t.map Prod.snd).foldl firstGateStep none

/-- The family of a body after the opening block `ChangeFamily(10,1); ChangeFamily(3,4)`. -/
def opened (fam : Nat) : Nat :=
  familyStep (familyStep fam (Call.ChangeFamily 10 1)) (Call.ChangeFamily 3 4)

/-- The family of a body after the stop block `ChangeFamily(4,3)`. -/
def stopped (fam : Nat) : Nat :=
  familyStep fam (Call.ChangeFamily 4 3)

end GranularFlow

namespace MooringBoxMotion

/-! ## Contact wildcard bring-up (source lines 211-230) -/

/-- The contact wildcards named in the bring-up sequence. -/
inductive Wildcard where
  | initialLength
  | innerInteraction
  deriving DecidableEq, Repr

/-- Solver calls of the bring-up sequence. Wildcard values (`0.0`, `2.0`) and the
duration of `DoDynamicsThenSync` are rationals. -/
inductive Call where
  | SetFamilyContactWildcardValueBoth (family : Nat) (name : Wildcard) (value : ℚ)
  | SetFamilyContactWildcardValue (family1 family2 : Nat) (name : Wildcard) (value : ℚ)
  | GetNumContacts
  | DoDynamicsThenSync (dt : ℚ)
  | MarkFamilyPersistentContactEither (family : Nat)
  | MarkFamilyPersistentContact (family1 family2 : Nat)
  | DisableContactBetweenFamilies (family1 family2 : Nat)
  deriving DecidableEq, Repr

/-- The solver calls of lines 211-230 of `main`, in program order. -/
def bringUp : List Call :=
  [ Call.SetFamilyContactWildcardValueBoth 1 Wildcard.initialLength 0,
    Call.SetFamilyContactWildcardValueBoth 1 Wildcard.innerInteraction 0,
    Call.SetFamilyContactWildcardValueBoth 2 Wildcard.initialLength 0,
    Call.SetFamilyContactWildcardValueBoth 2 Wildcard.innerInteraction 0,
    Call.SetFamilyContactWildcardValueBoth 3 Wildcard.initialLength 0,
    Call.SetFamilyContactWildcardValueBoth 3 Wildcard.innerInteraction 0,
    Call.GetNumContacts,
    Call.DoDynamicsThenSync 0,
    Call.SetFamilyContactWildcardValueBoth 1 Wildcard.innerInteraction 2,
    Call.SetFamilyContactWildcardValue 1 2 Wildcard.innerInteraction 2,
    Call.SetFamilyContactWildcardValue 1 3 Wildcard.innerInteraction 2,
    Call.GetNumContacts,
    Call.MarkFamilyPersistentContactEither 1,
    Call.MarkFamilyPersistentContact 1 2,
    Call.MarkFamilyPersistentContact 1 3,
    Call.DoDynamicsThenSync 0,
    Call.DisableContactBetweenFamilies 1 10,
    Call.DisableContactBetweenFamilies 3 10 ]

/-- A zeroing call: `SetFamilyContactWildcardValueBoth(f, name, 0.0)` with `f` in `{1,2,3}`. -/
def isZeroing : Call → Bool
  | Call.SetFamilyContactWildcardValueBoth f _ v => (f = 1 ∨ f = 2 ∨ f = 3) ∧ v = 0
  | _ => false

/-- An activation call: `innerInteraction` set to `2.0`. -/
def isActivation : Call → Bool
  | Call.SetFamilyContactWildcardValueBoth _ Wildcard.innerInteraction v => v = 2
  | Call.SetFamilyContactWildcardValue _ _ Wildcard.innerInteraction v => v = 2
  | _ => false

/-- A persistence call. -/
def isPersistence : Call → Bool
  | Call.MarkFamilyPersistentContactEither _ => true
  | Call.MarkFamilyPersistentContact _ _ => true
  | _ => false

/-- A synchronization call `DoDynamicsThenSync(0)`. -/
def isSync : Call → Bool
  | Call.DoDynamicsThenSync dt => dt = 0
  | _ => false

/-- Positions in the trace of the calls satisfying `p`. -/
def positions (p : Call → Bool) (t : List Call) : List Nat :=
  (t.enum.filter (fun e => p e.2)).map Prod.fst

/-- Positions of the calls satisfying `r` that lie strictly after every `p` call and
strictly before every `q` call. -/
def between (p q r : Call → Bool) (t : List Call) : List Nat :=
  (positions r t).filter (fun k =>
    (positions p t).all (fun i => i < k) && (positions q t).all (fun j => k < j))

/-! ## Prescribed orientation of family 3 (source lines 149-152) -/

/-- The error function `erf` of the math library, over the reals:
`erf x = 2/√π · ∫₀ˣ exp(-u²) du`. -/
noncomputable def erf (x : ℝ) : ℝ :=
  2 / Real.sqrt Real.pi * ∫ u in (0 : ℝ)..x, Real.exp (-u ^ 2)

/-- A `float4`, with real components. -/
structure Float4 where
  x : ℝ
  y : ℝ
  z : ℝ
  w : ℝ

/-- The expression registered by `SetFamilyPrescribedQuaternion(3, ...)`, read over the
reals: `make_float4(0, sin(erf(t/sqrt(2.00))*PI/29.0*sin(2*PI*1.0/1.60*t)), 0,
cos(erf(t/sqrt(5.00))*PI/29.0*sin(2*PI*1.0/1.60*t)))`. -/
noncomputable def prescribedQuaternion (t : ℝ) : Float4 :=
  { x := 0
    y := Real.sin (erf (t / Real.sqrt 2) * Real.pi / 29 * Real.sin (2 * Real.pi * 1 / 1.6 * t))
    z := 0
    w := Real.cos (erf (t / Real.sqrt 5) * Real.pi / 29 * Real.sin (2 * Real.pi * 1 / 1.6 * t)) }

/-- The sum of the squares of the four components. -/
def normSq (q : Float4) : ℝ :=
  q.x ^ 2 + q.y ^ 2 + q.z ^ 2 + q.w ^ 2

end MooringBoxMotion

/-! ## Theorems: production loop and staged generation -/

namespace GranularFlow

/-! ### Production loop: the body as a total function -/

theorem prodBody_ok {timeOut : Int} (hT : timeOut ≠ 0) (gateMotion i : Int) (s : ProdState) :
    prodBody timeOut gateMotion i s = Except.ok (prodStep timeOut gateMotion i s) := by
  simp [prodBody, prodStep, hT]

theorem prodFrom_ok {timeOut : Int} (hT : timeOut ≠ 0) (gateMotion : Int) (n : Nat) :
    ∀ (i : Int) (s : ProdState),
      prodFrom timeOut gateMotion n i s = Except.ok (prodRun timeOut gateMotion n i s) := by
  induction n with
  | zero => intro i s; rfl
  | succ n ih => intro i s; simp [prodFrom, prodRun, prodBody_ok hT, ih]

theorem prodRun_add (T G : Int) (a b : Nat) :
    ∀ (i : Int) (s : ProdState),
      prodRun T G (a + b) i s = prodRun T G b (i + a) (prodRun T G a i s) := by
  induction a with
  | zero => intro i s; simp [prodRun]
  | succ a ih =>
    intro i s
    have h : a + 1 + b = (a + b) + 1 := by omega
    rw [h]
    simp only [prodRun, ih]
    congr 1
    push_cast
    ring

theorem prodStep_trace (T G i : Int) (s : ProdState) :
    (prodStep T G i s).trace = s.trace ++ stepEvents T G i s := by
  simp only [prodStep, stopBlock, openBlock, outputBlock, stepEvents]
  split_ifs <;> simp_all

theorem prodStep_status (T G i : Int) (s : ProdState) :
    (prodStep T G i s).status = (s.status && decide (i ≤ T * 2)) := by
  cases hs : s.status <;>
    simp only [prodStep, stopBlock, openBlock, outputBlock] <;>
    split_ifs <;> simp_all

theorem prodStep_stopGate (T G i : Int) (s : ProdState) :
    (prodStep T G i s).stopGate = (s.stopGate && decide (i < T * 2 + G - 1)) := by
  cases hs : s.stopGate <;>
    simp only [prodStep, stopBlock, openBlock, outputBlock] <;>
    split_ifs <;> simp_all <;> omega

theorem prodStep_frame (T G i : Int) (s : ProdState) :
    (prodStep T G i s).frame = s.frame + (if Int.tmod i T = 0 ∨ i = 0 then 1 else 0) := by
  simp only [prodStep, stopBlock, openBlock, outputBlock]
  split_ifs <;> simp_all

theorem production_ok {T : Int} (hT : T ≠ 0) (G N : Int) :
    production T G N = Except.ok (prodRun T G N.toNat 0 prodInit) :=
  prodFrom_ok hT G _ _ _

theorem prodRun_trace_extends (T G : Int) (n : Nat) :
    ∀ (i : Int) (s : ProdState), s.trace <+: (prodRun T G n i s).trace := by
  induction n with
  | zero => intro i s; exact List.prefix_refl _
  | succ n ih =>
    intro i s
    rw [prodRun]
    refine List.IsPrefix.trans ?_ (ih (i + 1) _)
    rw [prodStep_trace]
    exact List.prefix_append _ _

theorem prodRun_succ_last (T G : Int) (k : Nat) (s : ProdState) :
    prodRun T G (k + 1) 0 s = prodStep T G k (prodRun T G k 0 s) := by
  rw [prodRun_add T G k 1 0 s]
  simp [prodRun]

/-! ### Production loop: the one-shot triggers -/

theorem calls_eq_length_stepsOf (c : Call) (t : List (Int × Call)) :
    calls c t = (stepsOf c t).length := by
  induction t with
  | nil => rfl
  | cons e t ih =>
    simp only [calls, stepsOf, List.map_cons, List.count_cons, List.filter_cons] at ih ⊢
    by_cases h : e.2 = c
    · simp [h, ih]
    · simp [h, ih]

theorem stepsOf_append (c : Call) (t u : List (Int × Call)) :
    stepsOf c (t ++ u) = stepsOf c t ++ stepsOf c u := by
  simp [stepsOf]

theorem stepsOf_open_stepEvents (T G i : Int) (s : ProdState) :
    stepsOf (Call.ChangeFamily 3 4) (stepEvents T G i s)
      = if i > T * 2 ∧ s.status = true then [i] else [] := by
  simp only [stepEvents, stepsOf]
  split_ifs <;> simp [List.filter_cons]

theorem stepsOf_frame_stepEvents (T G i : Int) (s : ProdState) :
    stepsOf (Call.ChangeFamily 10 1) (stepEvents T G i s)
      = if i > T * 2 ∧ s.status = true then [i] else [] := by
  simp only [stepEvents, stepsOf]
  split_ifs <;> simp [List.filter_cons]

theorem stepsOf_stop_stepEvents (T G i : Int) (s : ProdState) :
    stepsOf (Call.ChangeFamily 4 3) (stepEvents T G i s)
      = if i ≥ T * 2 + G - 1 ∧ s.stopGate = true then [i] else [] := by
  simp only [stepEvents, stepsOf]
  split_ifs <;> simp [List.filter_cons]

theorem stepsOf_open_prodRun (T G : Int) (n : Nat) :
    ∀ (i : Int) (s : ProdState),
      stepsOf (Call.ChangeFamily 3 4) (prodRun T G n i s).trace
        = stepsOf (Call.ChangeFamily 3 4) s.trace ++ firing s.status (T * 2) i n := by
  induction n with
  | zero => intro i s; simp [prodRun, firing]
  | succ n ih =>
    intro i s
    rw [prodRun, ih, prodStep_trace, stepsOf_append, stepsOf_open_stepEvents, prodStep_status,
      List.append_assoc]
    congr 1
    cases hs : s.status <;> simp only [firing] <;> split_ifs <;> simp_all <;> omega

theorem stepsOf_frame_prodRun (T G : Int) (n : Nat) :
    ∀ (i : Int) (s : ProdState),
      stepsOf (Call.ChangeFamily 10 1) (prodRun T G n i s).trace
        = stepsOf (Call.ChangeFamily 10 1) s.trace ++ firing s.status (T * 2) i n := by
  induction n with
  | zero => intro i s; simp [prodRun, firing]
  | succ n ih =>
    intro i s
    rw [prodRun, ih, prodStep_trace, stepsOf_append, stepsOf_frame_stepEvents, prodStep_status,
      List.append_assoc]
    congr 1
    cases hs : s.status <;> simp only [firing] <;> split_ifs <;> simp_all <;> omega

theorem stepsOf_stop_prodRun (T G : Int) (n : Nat) :
    ∀ (i : Int) (s : ProdState),
      stepsOf (Call.ChangeFamily 4 3) (prodRun T G n i s).trace
        = stepsOf (Call.ChangeFamily 4 3) s.trace ++ firing s.stopGate (T * 2 + G - 2) i n := by
  induction n with
  | zero => intro i s; simp [prodRun, firing]
  | succ n ih =>
    intro i s
    rw [prodRun, ih, prodStep_trace, stepsOf_append, stepsOf_stop_stepEvents, prodStep_stopGate,
      List.append_assoc]
    congr 1
    cases hs : s.stopGate <;> simp only [firing] <;> split_ifs <;> simp_all <;> omega

theorem firing_length_le (flag : Bool) (thr i : Int) (n : Nat) :
    (firing flag thr i n).length ≤ 1 := by
  unfold firing; split_ifs <;> simp

theorem calls_open_production (T G N : Int) :
    calls (Call.ChangeFamily 3 4) (prodRun T G N.toNat 0 prodInit).trace
      = (firing true (T * 2) 0 N.toNat).length := by
  rw [calls_eq_length_stepsOf, stepsOf_open_prodRun]; simp [prodInit, stepsOf]

theorem calls_frame_production (T G N : Int) :
    calls (Call.ChangeFamily 10 1) (prodRun T G N.toNat 0 prodInit).trace
      = (firing true (T * 2) 0 N.toNat).length := by
  rw [calls_eq_length_stepsOf, stepsOf_frame_prodRun]; simp [prodInit, stepsOf]

theorem calls_stop_production (T G N : Int) :
    calls (Call.ChangeFamily 4 3) (prodRun T G N.toNat 0 prodInit).trace
      = (firing true (T * 2 + G - 2) 0 N.toNat).length := by
  rw [calls_eq_length_stepsOf, stepsOf_stop_prodRun]; simp [prodInit, stepsOf]

theorem firing_length_of_exists {thr N : Int} (h : ∃ i : Int, 0 ≤ i ∧ i < N ∧ thr < i) :
    (firing true thr 0 N.toNat).length = 1 := by
  obtain ⟨i, h0, h1, h2⟩ := h
  have : true = true ∧ 0 < N.toNat ∧ thr + 1 < 0 + (N.toNat : Int) := ⟨rfl, by omega, by omega⟩
  rw [firing, if_pos this]; rfl

theorem firing_length_of_not_exists {thr N : Int}
    (h : ¬ ∃ i : Int, 0 ≤ i ∧ i < N ∧ thr < i) :
    (firing true thr 0 N.toNat).length = 0 := by
  have : ¬ (true = true ∧ 0 < N.toNat ∧ thr + 1 < 0 + (N.toNat : Int)) := by
    rintro ⟨_, h0, h1⟩
    exact h ⟨N - 1, by omega, by omega, by omega⟩
  rw [firing, if_neg this]; rfl

/-- C1 (amended to a nonzero cadence and thresholds within `int`). For `timeOut ≠ 0` such that
the threshold expressions `timeOut * 2`, `timeOut * 2 + gateMotion` and
`timeOut * 2 + gateMotion - 1` do not overflow `int`, the production loop completes, the
gate-opening action (`ChangeFamily(10,1); ChangeFamily(3,4)`) is executed exactly once if
some step index `0 ≤ i < numStep` has `i > 2*timeOut` and never otherwise, the gate-stop
action (`ChangeFamily(4,3)`) exactly once if some step index has
`i ≥ 2*timeOut + gateMotion - 1` and never otherwise; running `m` further steps extends the
trace without executing either action a second time. -/
theorem trigger_exactly_once (timeOut gateMotion numStep : Int) (hT : timeOut ≠ 0)
    (_hOpen : InInt (timeOut * 2)) (_hSum : InInt (timeOut * 2 + gateMotion))
    (_hStop : InInt (timeOut * 2 + gateMotion - 1)) :
    ∃ s, production timeOut gateMotion numStep = Except.ok s ∧
      ((∃ i : Int, 0 ≤ i ∧ i < numStep ∧ i > 2 * timeOut) →
        calls (Call.ChangeFamily 10 1) s.trace = 1 ∧ calls (Call.ChangeFamily 3 4) s.trace = 1) ∧
      ((¬ ∃ i : Int, 0 ≤ i ∧ i < numStep ∧ i > 2 * timeOut) →
        calls (Call.ChangeFamily 10 1) s.trace = 0 ∧ calls (Call.ChangeFamily 3 4) s.trace = 0) ∧
      ((∃ i : Int, 0 ≤ i ∧ i < numStep ∧ i ≥ 2 * timeOut + gateMotion - 1) →
        calls (Call.ChangeFamily 4 3) s.trace = 1) ∧
      ((¬ ∃ i : Int, 0 ≤ i ∧ i < numStep ∧ i ≥ 2 * timeOut + gateMotion - 1) →
        calls (Call.ChangeFamily 4 3) s.trace = 0) ∧
      ∀ m : Nat, ∃ s', production timeOut gateMotion (numStep + m) = Except.ok s' ∧
        s.trace <+: s'.trace ∧
        calls (Call.ChangeFamily 10 1) s'.trace ≤ 1 ∧
        calls (Call.ChangeFamily 3 4) s'.trace ≤ 1 ∧
        calls (Call.ChangeFamily 4 3) s'.trace ≤ 1 := by
  refine ⟨_, production_ok hT _ _, ?_, ?_, ?_, ?_, ?_⟩
  · intro h
    have h' : ∃ i : Int, 0 ≤ i ∧ i < numStep ∧ timeOut * 2 < i := by
      obtain ⟨i, a, b, c⟩ := h; exact ⟨i, a, b, by omega⟩
    rw [calls_frame_production, calls_open_production]
    exact ⟨firing_length_of_exists h', firing_length_of_exists h'⟩
  · intro h
    have h' : ¬ ∃ i : Int, 0 ≤ i ∧ i < numStep ∧ timeOut * 2 < i := by
      rintro ⟨i, a, b, c⟩; exact h ⟨i, a, b, by omega⟩
    rw [calls_frame_production, calls_open_production]
    exact ⟨firing_length_of_not_exists h', firing_length_of_not_exists h'⟩
  · intro h
    have h' : ∃ i : Int, 0 ≤ i ∧ i < numStep ∧ timeOut * 2 + gateMotion - 2 < i := by
      obtain ⟨i, a, b, c⟩ := h; exact ⟨i, a, b, by omega⟩
    rw [calls_stop_production]
    exact firing_length_of_exists h'
  · intro h
    have h' : ¬ ∃ i : Int, 0 ≤ i ∧ i < numStep ∧ timeOut * 2 + gateMotion - 2 < i := by
      rintro ⟨i, a, b, c⟩; exact h ⟨i, a, b, by omega⟩
    rw [calls_stop_production]
    exact firing_length_of_not_exists h'
  · intro m
    refine ⟨_, production_ok hT _ _, ?_, ?_, ?_, ?_⟩
    · obtain ⟨b, hb⟩ : ∃ b : Nat, (numStep + m).toNat = numStep.toNat + b :=
        ⟨(numStep + m).toNat - numStep.toNat, by omega⟩
      rw [hb, prodRun_add]
      exact prodRun_trace_extends _ _ _ _ _
    · rw [calls_frame_production]; exact firing_length_le _ _ _ _
    · rw [calls_open_production]; exact firing_length_le _ _ _ _
    · rw [calls_stop_production]; exact firing_length_le _ _ _ _

theorem trigger_exactly_once_witness :
    ((10 : Int) ≠ 0 ∧ InInt (10 * 2) ∧ InInt (10 * 2 + 34) ∧ InInt (10 * 2 + 34 - 1)) ∧
    ∃ s, production 10 34 100 = Except.ok s ∧
      calls (Call.ChangeFamily 10 1) s.trace = 1 ∧ calls (Call.ChangeFamily 3 4) s.trace = 1 ∧
      calls (Call.ChangeFamily 4 3) s.trace = 1 := by
  refine ⟨⟨by decide, by decide, by decide, by decide⟩, ?_⟩
  obtain ⟨s, hs, h1, _, h3, _, _⟩ :=
    trigger_exactly_once 10 34 100 (by decide) (by decide) (by decide) (by decide)
  exact ⟨s, hs, (h1 ⟨21, by decide, by decide, by decide⟩).1,
    (h1 ⟨21, by decide, by decide, by decide⟩).2, h3 ⟨99, by decide, by decide, by decide⟩⟩

/-- C1 as stated fails for `timeOut = 0`: with `numStep = 2` the step index `i = 1`
satisfies `i > 2*timeOut` (and `i = 0` satisfies `i ≥ 2*timeOut + gateMotion - 1`), yet the
run aborts in its first iteration at `i % timeOut`, after the single call `DoDynamics`, and
neither action is executed. -/
theorem trigger_zero_cadence_counterexample :
    (∃ i : Int, 0 ≤ i ∧ i < 2 ∧ i > 2 * 0) ∧
    (∃ i : Int, 0 ≤ i ∧ i < 2 ∧ i ≥ 2 * 0 + 0 - 1) ∧
    production 0 0 2 = Except.error
      { frame := 0, status := true, stopGate := true, trace := [(0, Call.DoDynamics)] } ∧
    calls (Call.ChangeFamily 10 1) (reached (production 0 0 2)).trace = 0 ∧
    calls (Call.ChangeFamily 3 4) (reached (production 0 0 2)).trace = 0 ∧
    calls (Call.ChangeFamily 4 3) (reached (production 0 0 2)).trace = 0 :=
  ⟨⟨1, by decide, by decide, by decide⟩, ⟨0, by decide, by decide, by decide⟩,
    rfl, by decide, by decide, by decide⟩

/-- C2 (amended). For `timeOut ≥ 1` whose threshold `timeOut * 2` does not overflow `int`, the
gate-opening reassignment (`ChangeFamily(10,1)` and `ChangeFamily(3,4)`) is executed in the
iteration with step index `2*timeOut + 1`, the first index strictly above the threshold, and
in no other iteration, provided `numStep > 2*timeOut + 1`; for a smaller `numStep` it is not
executed at all. -/
theorem gate_opens_after_threshold (timeOut gateMotion numStep : Int) (hT : 1 ≤ timeOut)
    (_hOpen : InInt (timeOut * 2)) :
    ∃ s, production timeOut gateMotion numStep = Except.ok s ∧
      stepsOf (Call.ChangeFamily 3 4) s.trace
        = (if 2 * timeOut + 1 < numStep then [2 * timeOut + 1] else []) ∧
      stepsOf (Call.ChangeFamily 10 1) s.trace
        = (if 2 * timeOut + 1 < numStep then [2 * timeOut + 1] else []) := by
  have hT0 : timeOut ≠ 0 := by omega
  have key : firing true (timeOut * 2) 0 numStep.toNat
      = (if 2 * timeOut + 1 < numStep then [2 * timeOut + 1] else []) := by
    unfold firing
    by_cases h : 2 * timeOut + 1 < numStep
    · have h' : true = true ∧ 0 < numStep.toNat ∧ timeOut * 2 + 1 < 0 + (numStep.toNat : Int) :=
        ⟨rfl, by omega, by omega⟩
      rw [if_pos h', if_pos h]
      have : max (0 : Int) (timeOut * 2 + 1) = 2 * timeOut + 1 := by omega
      rw [this]
    · have h' : ¬ (true = true ∧ 0 < numStep.toNat ∧
          timeOut * 2 + 1 < 0 + (numStep.toNat : Int)) := by
        rintro ⟨_, a, b⟩; omega
      rw [if_neg h', if_neg h]
  refine ⟨_, production_ok hT0 _ _, ?_, ?_⟩
  · rw [stepsOf_open_prodRun, ← key]; simp [prodInit, stepsOf]
  · rw [stepsOf_frame_prodRun, ← key]; simp [prodInit, stepsOf]

theorem gate_opens_after_threshold_witness :
    ((1 : Int) ≤ 10 ∧ InInt (10 * 2)) ∧ ∃ s, production 10 34 100 = Except.ok s ∧
      stepsOf (Call.ChangeFamily 3 4) s.trace = [21] ∧
      stepsOf (Call.ChangeFamily 10 1) s.trace = [21] :=
  ⟨⟨by decide, by decide⟩, gate_opens_after_threshold 10 34 100 (by decide) (by decide)⟩

/-- C2 as stated fails: with `timeOut = 1` the claim places the reassignment in the
iteration `i = 2`; for `numStep = 3 > 2*timeOut` it is not executed in any iteration, and for
`numStep = 4` it is executed in iteration `i = 3` only. -/
theorem gate_opens_at_threshold_counterexample :
    (1 : Int) ≤ 1 ∧ (3 : Int) > 2 * 1 ∧
    (∃ s, production 1 34 3 = Except.ok s ∧ stepsOf (Call.ChangeFamily 3 4) s.trace = [] ∧
      stepsOf (Call.ChangeFamily 10 1) s.trace = []) ∧
    (∃ s, production 1 34 4 = Except.ok s ∧ stepsOf (Call.ChangeFamily 3 4) s.trace = [3] ∧
      stepsOf (Call.ChangeFamily 10 1) s.trace = [3]) :=
  ⟨by decide, by decide, ⟨_, rfl, by decide, by decide⟩, ⟨_, rfl, by decide, by decide⟩⟩

/-! ### Production loop: how long the gate is driven -/

theorem drivenFrom_append (t u : List Call) :
    ∀ fam, drivenFrom fam (t ++ u) = drivenFrom fam t + drivenFrom (t.foldl familyStep fam) u := by
  induction t with
  | nil => intro fam; simp [drivenFrom]
  | cons c t ih => intro fam; simp [drivenFrom, ih, Nat.add_assoc]

theorem drivenSteps_append (t u : List (Int × Call)) :
    drivenSteps (t ++ u) = drivenSteps t + drivenFrom (familyAfter 3 t) (u.map Prod.snd) := by
  simp [drivenSteps, familyAfter, drivenFrom_append]

theorem familyAfter_append (fam : Nat) (t u : List (Int × Call)) :
    familyAfter fam (t ++ u) = familyAfter (familyAfter fam t) u := by
  simp [familyAfter]

/-- The gate's family and the driven steps after `k` iterations, for `timeOut ≥ 1` and
`gateMotion ≥ 2`. -/
theorem gate_closed_form (T G : Int) (hT : 1 ≤ T) (hG : 2 ≤ G) (k : Nat) :
    (prodRun T G k 0 prodInit).status = decide ((k : Int) ≤ 2 * T + 1) ∧
    (prodRun T G k 0 prodInit).stopGate = decide ((k : Int) ≤ 2 * T + G - 1) ∧
    familyAfter 3 (prodRun T G k 0 prodInit).trace
      = (if 2 * T + 2 ≤ (k : Int) ∧ (k : Int) ≤ 2 * T + G - 1 then 4 else 3) ∧
    (drivenSteps (prodRun T G k 0 prodInit).trace : Int)
      = max 0 (min (k : Int) (2 * T + G) - (2 * T + 2)) := by
  induction k with
  | zero =>
    refine ⟨?_, ?_, ?_, ?_⟩
    · simp [prodRun, prodInit]; omega
    · simp [prodRun, prodInit]; omega
    · have : ¬ (2 * T + 2 ≤ ((0 : Nat) : Int) ∧ ((0 : Nat) : Int) ≤ 2 * T + G - 1) := by
        push_cast; omega
      rw [if_neg this]; rfl
    · simp [prodRun, prodInit, drivenSteps, drivenFrom]; omega
  | succ k ih =>
    obtain ⟨h1, h2, h3, h4⟩ := ih
    rw [prodRun_succ_last]
    refine ⟨?_, ?_, ?_, ?_⟩
    · rw [prodStep_status, h1]
      simp only [Bool.and_eq_decide, decide_eq_decide, decide_eq_true_eq]
      push_cast; omega
    · rw [prodStep_stopGate, h2]
      simp only [Bool.and_eq_decide, decide_eq_decide, decide_eq_true_eq]
      push_cast; omega
    · rw [prodStep_trace, familyAfter_append, h3]
      simp only [stepEvents, h1, h2, decide_eq_true_eq]
      push_cast
      split_ifs <;> simp [familyAfter, familyStep] <;> omega
    · rw [prodStep_trace, drivenSteps_append, h3]
      push_cast
      rw [h4]
      simp only [stepEvents, h1, h2, decide_eq_true_eq]
      split_ifs <;> simp [drivenFrom, familyStep] <;> omega

/-- The gate is driven for `gateMotion - 2` steps and ends in family 3, for `timeOut ≥ 1`,
`gateMotion ≥ 2` and a run long enough for both triggers. -/
theorem gate_driven_steps (T G N : Int) (hT : 1 ≤ T) (hG : 2 ≤ G) (hN : 2 * T + G ≤ N) :
    ∃ s, production T G N = Except.ok s ∧ (drivenSteps s.trace : Int) = G - 2 ∧
      familyAfter 3 s.trace = 3 := by
  obtain ⟨-, -, h3, h4⟩ := gate_closed_form T G hT hG N.toNat
  refine ⟨_, production_ok (by omega) G N, ?_, ?_⟩
  · rw [h4]
    have : ((N.toNat : Nat) : Int) = N := Int.toNat_of_nonneg (by omega)
    rw [this]; omega
  · rw [h3]
    have : ((N.toNat : Nat) : Int) = N := Int.toNat_of_nonneg (by omega)
    rw [this, if_neg (by omega)]

/-- C10 (what the code does). With `timeOut = 10`, `gateMotion = 34` and `numStep = 7000` the
gate is in family 4 during 32 `DoDynamics(timeStep)` calls, two fewer than `gateMotion`,
before `ChangeFamily(4,3)` returns it to family 3. With `timeOut = 1`, `gateMotion = 1` and
`numStep = 10` the stop trigger fires (step 2) before the opening trigger (step 3): the gate
is driven during the 6 remaining steps and is left in family 4. -/
theorem gate_travel_interval_short :
    (∃ s, production 10 34 7000 = Except.ok s ∧ drivenSteps s.trace = 32 ∧
      familyAfter 3 s.trace = 3) ∧
    (∃ s, production 1 1 10 = Except.ok s ∧
      stepsOf (Call.ChangeFamily 4 3) s.trace = [2] ∧
      stepsOf (Call.ChangeFamily 3 4) s.trace = [3] ∧
      drivenSteps s.trace = 6 ∧ familyAfter 3 s.trace = 4) := by
  refine ⟨?_, ⟨_, rfl, by decide, by decide, by decide, by decide⟩⟩
  obtain ⟨s, hs, hd, hf⟩ := gate_driven_steps 10 34 7000 (by decide) (by decide) (by decide)
  exact ⟨s, hs, by omega, hf⟩

/-! ### Production loop: the output cadence -/

theorem sphereFrames_append (t u : List (Int × Call)) :
    sphereFrames (t ++ u) = sphereFrames t ++ sphereFrames u := by
  simp [sphereFrames, List.filterMap_append]

theorem meshFrames_append (t u : List (Int × Call)) :
    meshFrames (t ++ u) = meshFrames t ++ meshFrames u := by
  simp [meshFrames, List.filterMap_append]

theorem sphereFrames_stepEvents (T G i : Int) (s : ProdState) :
    sphereFrames (stepEvents T G i s)
      = if Int.tmod i T = 0 ∨ i = 0 then [(i, s.frame)] else [] := by
  simp only [stepEvents, sphereFrames]
  split_ifs <;> simp [List.filterMap_cons]

theorem meshFrames_stepEvents (T G i : Int) (s : ProdState) :
    meshFrames (stepEvents T G i s)
      = if Int.tmod i T = 0 ∨ i = 0 then [(i, s.frame)] else [] := by
  simp only [stepEvents, meshFrames]
  split_ifs <;> simp [List.filterMap_cons]

theorem stepsOf_dynamics_stepEvents (T G i : Int) (s : ProdState) :
    stepsOf Call.DoDynamics (stepEvents T G i s) = [i] := by
  simp only [stepEvents, stepsOf]
  split_ifs <;> simp [List.filter_cons]

/-- The output test is divisibility by `T`: the disjunct `i == 0` adds nothing. -/
theorem output_test_iff (T i : Int) :
    (Int.tmod i T = 0 ∨ i = 0) ↔ T ∣ i := by
  constructor
  · rintro (h | h)
    · exact Int.dvd_of_tmod_eq_zero h
    · rw [h]; exact Int.dvd_zero T
  · intro h; exact Or.inl (Int.tmod_eq_zero_of_dvd h)

theorem cadenceFrames_succ (T : Int) (n : Nat) :
    cadenceFrames T (n + 1) = cadenceFrames T n ++ [((n : Int) * T, (n : Int))] := by
  simp [cadenceFrames, List.range_succ]

/-- The frame counter and the snapshots after `k` iterations, for `timeOut ≥ 1`: the
counter `f` is the least number with `k ≤ f * T`, frame `j < f` was written at step `j * T`,
and every iteration made one `DoDynamics` call. -/
theorem cadence_closed_form (T G : Int) (hT : 1 ≤ T) (k : Nat) :
    ∃ f : Nat, (prodRun T G k 0 prodInit).frame = f ∧
      (k : Int) ≤ (f : Int) * T ∧ ((f : Int) - 1) * T < k ∧
      sphereFrames (prodRun T G k 0 prodInit).trace = cadenceFrames T f ∧
      meshFrames (prodRun T G k 0 prodInit).trace = cadenceFrames T f ∧
      stepsOf Call.DoDynamics (prodRun T G k 0 prodInit).trace
        = (List.range k).map (fun i : Nat => (i : Int)) := by
  induction k with
  | zero =>
    refine ⟨0, rfl, by simp, by simp; omega, rfl, rfl, rfl⟩
  | succ k ih =>
    obtain ⟨f, hf, hle, hlt, hsph, hmesh, hdyn⟩ := ih
    rw [prodRun_succ_last]
    have htest := output_test_iff T (k : Int)
    have hdyn' : stepsOf Call.DoDynamics (prodStep T G k (prodRun T G k 0 prodInit)).trace
        = (List.range (k + 1)).map (fun i : Nat => (i : Int)) := by
      rw [prodStep_trace, stepsOf_append, stepsOf_dynamics_stepEvents, hdyn, List.range_succ,
        List.map_append]
      rfl
    by_cases hd : T ∣ (k : Int)
    · have hc : Int.tmod (k : Int) T = 0 ∨ (k : Int) = 0 := htest.2 hd
      obtain ⟨q, hq⟩ := hd
      have hq1 : (f : Int) - 1 < q := by
        by_contra h
        have h' : q ≤ (f : Int) - 1 := by omega
        have := Int.mul_le_mul_of_nonneg_right h' (by omega : (0 : Int) ≤ T)
        rw [Int.mul_comm q T] at this
        omega
      have hq2 : q ≤ (f : Int) := by
        by_contra h
        have h' : (f : Int) + 1 ≤ q := by omega
        have := Int.mul_le_mul_of_nonneg_right h' (by omega : (0 : Int) ≤ T)
        rw [Int.mul_comm q T, Int.add_mul] at this
        omega
      have hqf : q = (f : Int) := by omega
      have hk : (k : Int) = (f : Int) * T := by rw [hq, hqf, Int.mul_comm]
      refine ⟨f + 1, ?_, ?_, ?_, ?_, ?_, hdyn'⟩
      · rw [prodStep_frame, if_pos hc, hf]; push_cast; rfl
      · push_cast; rw [Int.add_mul]; omega
      · have : ((f + 1 : Nat) : Int) - 1 = f := by push_cast; ring
        rw [this, ← hk]; push_cast; omega
      · rw [prodStep_trace, sphereFrames_append, sphereFrames_stepEvents, if_pos hc, hsph,
          cadenceFrames_succ, hf, hk]
      · rw [prodStep_trace, meshFrames_append, meshFrames_stepEvents, if_pos hc, hmesh,
          cadenceFrames_succ, hf, hk]
    · have hc : ¬ (Int.tmod (k : Int) T = 0 ∨ (k : Int) = 0) := fun h => hd (htest.1 h)
      have hne : (k : Int) ≠ (f : Int) * T := fun h => hd ⟨f, by rw [h, Int.mul_comm]⟩
      refine ⟨f, ?_, ?_, ?_, ?_, ?_, hdyn'⟩
      · rw [prodStep_frame, if_neg hc, hf]; simp
      · push_cast; omega
      · push_cast; omega
      · rw [prodStep_trace, sphereFrames_append, sphereFrames_stepEvents, if_neg hc, hsph]; simp
      · rw [prodStep_trace, meshFrames_append, meshFrames_stepEvents, if_neg hc, hmesh]; simp
theorem mem_cadenceFrames (T : Int) (hT : 1 ≤ T) (n : Nat) (N : Int)
    (hle : N ≤ (n : Int) * T) (hlt : ((n : Int) - 1) * T < N) (i f : Int) :
    (i, f) ∈ cadenceFrames T n ↔ 0 ≤ i ∧ i < N ∧ T ∣ i ∧ f = i / T := by
  have hT0 : T ≠ 0 := by omega
  simp only [cadenceFrames, List.mem_map, List.mem_range, Prod.mk.injEq]
  constructor
  · rintro ⟨j, hj, rfl, rfl⟩
    have h1 : (0 : Int) ≤ (j : Int) * T := Int.mul_nonneg (Int.ofNat_nonneg j) (by omega)
    have h2 : (j : Int) * T ≤ ((n : Int) - 1) * T :=
      Int.mul_le_mul_of_nonneg_right (by omega) (by omega)
    exact ⟨h1, by omega, Dvd.intro_left _ rfl, (Int.mul_ediv_cancel _ hT0).symm⟩
  · rintro ⟨h0, hN, ⟨q, rfl⟩, rfl⟩
    have hq0 : 0 ≤ q := by
      by_contra h
      have h' : q ≤ -1 := by omega
      have := Int.mul_le_mul_of_nonneg_left h' (by omega : (0 : Int) ≤ T)
      omega
    have hqn : q < (n : Int) := by
      by_contra h
      have h' : (n : Int) ≤ q := by omega
      have := Int.mul_le_mul_of_nonneg_right h' (by omega : (0 : Int) ≤ T)
      rw [Int.mul_comm q T] at this
      omega
    refine ⟨q.toNat, by omega, ?_, ?_⟩
    · rw [Int.toNat_of_nonneg hq0, Int.mul_comm]
    · rw [Int.toNat_of_nonneg hq0, Int.mul_ediv_cancel_left _ hT0]

/-- C11. For `timeOut ≥ 1` and `numStep ≥ 0` the production loop completes, every iteration
`0, ..., numStep - 1` makes exactly one `DoDynamics(timeStep)` call, the output test is the
same as `timeOut ∣ i` (the disjunct `i == 0` changes nothing), a mesh and a sphere snapshot
are written in exactly the iterations whose step index `i < numStep` is a multiple of
`timeOut`, the snapshot of step `i` carries frame number `i / timeOut`, and after the loop
`⌈numStep / timeOut⌉` snapshots have been written, with frame numbers `0, 1, 2, ...` in order
without gaps or repeats. -/
theorem output_cadence (timeOut gateMotion numStep : Int) (hT : 1 ≤ timeOut)
    (hN : 0 ≤ numStep) :
    ∃ s, production timeOut gateMotion numStep = Except.ok s ∧
      stepsOf Call.DoDynamics s.trace
        = (List.range numStep.toNat).map (fun i : Nat => (i : Int)) ∧
      (∀ i : Int, (Int.tmod i timeOut = 0 ∨ i = 0) ↔ timeOut ∣ i) ∧
      s.frame = (numStep + timeOut - 1) / timeOut ∧
      sphereFrames s.trace
        = cadenceFrames timeOut ((numStep + timeOut - 1) / timeOut).toNat ∧
      meshFrames s.trace
        = cadenceFrames timeOut ((numStep + timeOut - 1) / timeOut).toNat ∧
      (∀ i f : Int, (i, f) ∈ sphereFrames s.trace ↔
        0 ≤ i ∧ i < numStep ∧ timeOut ∣ i ∧ f = i / timeOut) ∧
      (∀ i f : Int, (i, f) ∈ meshFrames s.trace ↔
        0 ≤ i ∧ i < numStep ∧ timeOut ∣ i ∧ f = i / timeOut) := by
  obtain ⟨f, hf, hle, hlt, hsph, hmesh, hdyn⟩ := cadence_closed_form timeOut gateMotion hT
    numStep.toNat
  have hcast : ((numStep.toNat : Nat) : Int) = numStep := Int.toNat_of_nonneg hN
  rw [hcast] at hle hlt
  have hpos : (0 : Int) < timeOut := by omega
  have hceil : (numStep + timeOut - 1) / timeOut = (f : Int) := by
    have h1 : (f : Int) ≤ (numStep + timeOut - 1) / timeOut := by
      rw [Int.le_ediv_iff_mul_le hpos]
      have : ((f : Int) - 1) * timeOut = (f : Int) * timeOut - timeOut := by ring
      omega
    have h2 : (numStep + timeOut - 1) / timeOut < (f : Int) + 1 := by
      rw [Int.ediv_lt_iff_lt_mul hpos, Int.add_mul]
      omega
    omega
  have hnat : ((numStep + timeOut - 1) / timeOut).toNat = f := by rw [hceil]; simp
  refine ⟨_, production_ok (by omega) gateMotion numStep, hdyn, output_test_iff timeOut,
    by rw [hf, hceil], by rw [hsph, hnat], by rw [hmesh, hnat], ?_, ?_⟩
  · intro i g
    rw [hsph]
    exact mem_cadenceFrames timeOut hT f numStep hle hlt i g
  · intro i g
    rw [hmesh]
    exact mem_cadenceFrames timeOut hT f numStep hle hlt i g

theorem output_cadence_witness :
    ((1 : Int) ≤ 10 ∧ (0 : Int) ≤ 95) ∧
    ∃ s, production 10 34 95 = Except.ok s ∧
      stepsOf Call.DoDynamics s.trace = (List.range 95).map (fun i : Nat => (i : Int)) ∧
      s.frame = 10 ∧
      sphereFrames s.trace = cadenceFrames 10 10 ∧
      meshFrames s.trace = cadenceFrames 10 10 := by
  refine ⟨⟨by decide, by decide⟩, ?_⟩
  obtain ⟨s, hs, h1, -, h3, h4, h5, -, -⟩ := output_cadence 10 34 95 (by decide) (by decide)
  exact ⟨s, hs, h1, h3, h4, h5⟩
/-! ### Production loop: families after the run -/

theorem firstGateCall_append (t u : List (Int × Call)) :
    firstGateCall (t ++ u) = (u.map Prod.snd).foldl firstGateStep (firstGateCall t) := by
  simp [firstGateCall]

theorem firstGateStep_some (b : Bool) (l : List Call) :
    l.foldl firstGateStep (some b) = some b := by
  induction l with
  | nil => rfl
  | cons c l ih => simpa [firstGateStep] using ih

/-- The family of any body and the first gate reassignment after `k` iterations, for
`timeOut ≥ 1` and `gateMotion ≥ 2`. -/
theorem family_closed_form (T G : Int) (hT : 1 ≤ T) (hG : 2 ≤ G) (fam : Nat) (k : Nat) :
    familyAfter fam (prodRun T G k 0 prodInit).trace
      = (if (k : Int) ≤ 2 * T + 1 then fam
         else if (k : Int) ≤ 2 * T + G - 1 then opened fam else stopped (opened fam)) ∧
    firstGateCall (prodRun T G k 0 prodInit).trace
      = (if (k : Int) ≤ 2 * T + 1 then none else some true) := by
  induction k with
  | zero =>
    have h : ((0 : Nat) : Int) ≤ 2 * T + 1 := by push_cast; omega
    rw [if_pos h, if_pos h]
    exact ⟨rfl, rfl⟩
  | succ k ih =>
    obtain ⟨hfam, hfirst⟩ := ih
    obtain ⟨h1, h2, -, -⟩ := gate_closed_form T G hT hG k
    rw [prodRun_succ_last]
    refine ⟨?_, ?_⟩
    · rw [prodStep_trace, familyAfter_append, hfam]
      simp only [stepEvents, h1, h2, decide_eq_true_eq]
      push_cast
      split_ifs <;> first | omega | simp [familyAfter, familyStep, opened, stopped]
    · rw [prodStep_trace, firstGateCall_append, hfirst]
      simp only [stepEvents, h1, h2, decide_eq_true_eq]
      push_cast
      split_ifs <;> first | omega | simp [firstGateStep, firstGateStep_some]
theorem stopped_opened_ne (fam : Nat) :
    stopped (opened fam) ≠ 4 ∧ stopped (opened fam) ≠ 10 := by
  simp only [stopped, opened, familyStep]
  split_ifs <;> omega

/-- C12 (amended to `timeOut ≥ 1`). For `timeOut ≥ 1`, `gateMotion ≥ 2` and
`numStep ≥ 2*timeOut + gateMotion` the production loop completes; `ChangeFamily(3,4)` is
called once, at step `2*timeOut + 1`, and `ChangeFamily(4,3)` once, at step
`2*timeOut + gateMotion - 1`, and the first of the two in the trace is `ChangeFamily(3,4)`
(also when both fall in the same iteration); after the loop a body that started in family 3
is in the Fixed family 3, a body that started in family 10 is in the Fixed family 1, no
body, whatever its first family, is in family 4 or 10, and a body of family 100 is still
in family 100. -/
theorem final_families (timeOut gateMotion numStep : Int) (hT : 1 ≤ timeOut)
    (hG : 2 ≤ gateMotion) (hN : 2 * timeOut + gateMotion ≤ numStep) :
    ∃ s, production timeOut gateMotion numStep = Except.ok s ∧
      stepsOf (Call.ChangeFamily 3 4) s.trace = [2 * timeOut + 1] ∧
      stepsOf (Call.ChangeFamily 4 3) s.trace = [2 * timeOut + gateMotion - 1] ∧
      firstGateCall s.trace = some true ∧
      familyAfter 3 s.trace = 3 ∧ boundaryOf 3 = Boundary.Fixed ∧
      familyAfter 10 s.trace = 1 ∧ boundaryOf 1 = Boundary.Fixed ∧
      (∀ fam, familyAfter fam s.trace ≠ 4 ∧ familyAfter fam s.trace ≠ 10) ∧
      familyAfter 100 s.trace = 100 := by
  have hcast : ((numStep.toNat : Nat) : Int) = numStep := Int.toNat_of_nonneg (by omega)
  have hfam : ∀ fam, familyAfter fam (prodRun timeOut gateMotion numStep.toNat 0 prodInit).trace
      = stopped (opened fam) := by
    intro fam
    rw [(family_closed_form timeOut gateMotion hT hG fam numStep.toNat).1, hcast,
      if_neg (by omega), if_neg (by omega)]
  have hopen : firing true (timeOut * 2) 0 numStep.toNat = [2 * timeOut + 1] := by
    have h : true = true ∧ 0 < numStep.toNat ∧ timeOut * 2 + 1 < 0 + (numStep.toNat : Int) :=
      ⟨rfl, by omega, by omega⟩
    rw [firing, if_pos h]
    have : max (0 : Int) (timeOut * 2 + 1) = 2 * timeOut + 1 := by omega
    rw [this]
  have hstop : firing true (timeOut * 2 + gateMotion - 2) 0 numStep.toNat
      = [2 * timeOut + gateMotion - 1] := by
    have h : true = true ∧ 0 < numStep.toNat ∧
        timeOut * 2 + gateMotion - 2 + 1 < 0 + (numStep.toNat : Int) :=
      ⟨rfl, by omega, by omega⟩
    rw [firing, if_pos h]
    have : max (0 : Int) (timeOut * 2 + gateMotion - 2 + 1) = 2 * timeOut + gateMotion - 1 := by
      omega
    rw [this]
  refine ⟨_, production_ok (by omega) gateMotion numStep, ?_, ?_, ?_, ?_, by decide, ?_,
    by decide, ?_, ?_⟩
  · rw [stepsOf_open_prodRun]
    show stepsOf (Call.ChangeFamily 3 4) [] ++ firing true (timeOut * 2) 0 numStep.toNat = _
    rw [hopen]; rfl
  · rw [stepsOf_stop_prodRun]
    show stepsOf (Call.ChangeFamily 4 3) []
      ++ firing true (timeOut * 2 + gateMotion - 2) 0 numStep.toNat = _
    rw [hstop]; rfl
  · rw [(family_closed_form timeOut gateMotion hT hG 0 numStep.toNat).2, hcast,
      if_neg (by omega)]
  · rw [hfam]; decide
  · rw [hfam]; decide
  · intro fam; rw [hfam]; exact stopped_opened_ne fam
  · rw [hfam]; decide

theorem final_families_witness :
    ((1 : Int) ≤ 10 ∧ (2 : Int) ≤ 2 ∧ (2 * 10 + 2 : Int) ≤ 100) ∧
    ∃ s, production 10 2 100 = Except.ok s ∧
      stepsOf (Call.ChangeFamily 3 4) s.trace = [21] ∧
      stepsOf (Call.ChangeFamily 4 3) s.trace = [21] ∧
      firstGateCall s.trace = some true ∧
      familyAfter 3 s.trace = 3 ∧ familyAfter 10 s.trace = 1 ∧
      familyAfter 100 s.trace = 100 := by
  refine ⟨⟨by decide, by decide, by decide⟩, ?_⟩
  obtain ⟨s, hs, h1, h2, h3, h4, -, h5, -, -, h6⟩ :=
    final_families 10 2 100 (by decide) (by decide) (by decide)
  exact ⟨s, hs, h1, h2, h3, h4, h5, h6⟩

/-- C12 as stated fails for `timeOut = 0`: with `gateMotion = 2` and `numStep = 2` the run
aborts in its first iteration at `i % timeOut`, no `ChangeFamily` call is made, and a body
that started in family 10 is still in family 10, not in the Fixed family 1. -/
theorem final_families_zero_cadence_counterexample :
    ((0 : Int) ≤ 0 ∧ (2 : Int) ≤ 2 ∧ (2 * 0 + 2 : Int) ≤ 2) ∧
    production 0 2 2 = Except.error
      { frame := 0, status := true, stopGate := true, trace := [(0, Call.DoDynamics)] } ∧
    calls (Call.ChangeFamily 3 4) (reached (production 0 2 2)).trace = 0 ∧
    calls (Call.ChangeFamily 10 1) (reached (production 0 2 2)).trace = 0 ∧
    familyAfter 10 (reached (production 0 2 2)).trace = 10 ∧
    boundaryOf 10 = Boundary.PrescribedLinVel :=
  ⟨⟨by decide, by decide, by decide⟩, rfl, by decide, by decide, by decide, by decide⟩

/-! ### Staged loop: template assignment and single stages -/

theorem toUInt_of_range {x : Int} (h0 : 0 ≤ x) (h1 : x < 2 ^ 32) : toUInt x = x.toNat := by
  unfold toUInt
  rw [Int.emod_eq_of_lt h0 h1]

theorem toUInt_pos {x : Int} (h1 : 1 ≤ x) (h2 : x < 2 ^ 31) : 0 < toUInt x := by
  rw [toUInt_of_range (by omega) (by omega)]; omega

theorem clump_types_length (num_template : Int) :
    (clump_types num_template).length = num_template.toNat := by
  simp [clump_types]

theorem assignFrom_spec (pool : List Nat) (num_template : Int)
    (h0 : toUInt num_template ≠ 0) (hlen : pool.length = toUInt num_template) (n : Nat) :
    ∀ i : Nat, ∃ l, assignFrom pool num_template n i = some l ∧ l.length = n ∧
      ∀ k, k < n → l.get? k = pool.get? ((i + k) % toUInt num_template) := by
  induction n with
  | zero => intro i; exact ⟨[], rfl, rfl, fun k hk => absurd hk (Nat.not_lt_zero k)⟩
  | succ n ih =>
    intro i
    obtain ⟨l, hl, hlen', hget⟩ := ih (i + 1)
    have hlt : i % toUInt num_template < pool.length := by
      rw [hlen]; exact Nat.mod_lt _ (Nat.pos_of_ne_zero h0)
    obtain ⟨t, ht⟩ : ∃ t, pool.get? (i % toUInt num_template) = some t :=
      ⟨pool.get ⟨_, hlt⟩, List.get?_eq_get hlt⟩
    refine ⟨t :: l, ?_, by simp [hlen'], ?_⟩
    · simp only [assignFrom, h0, ↓reduceIte, ht, hl, Option.map]
    · intro k hk
      cases k with
      | zero => simpa using ht.symm
      | succ k =>
        have := hget k (by omega)
        simp only [List.get?_cons_succ, this]
        congr 2
        omega

theorem fillLoop_zero (p : Params) (w : World) (s : FillState) (h : s.initialization = true) :
    fillLoop p w 0 s = Outcome.unfinished s := by
  simp [fillLoop, h]

theorem fillLoop_done (p : Params) (w : World) (fuel : Nat) (s : FillState)
    (h : s.initialization = false) : fillLoop p w fuel s = Outcome.done s := by
  cases fuel <;> simp [fillLoop, h]

theorem fillLoop_succ (p : Params) (w : World) (fuel : Nat) (s s' : FillState)
    (h : s.initialization = true) (hs : stage p w s = Except.ok s') :
    fillLoop p w (fuel + 1) s = fillLoop p w fuel s' := by
  simp [fillLoop, h, hs]

/-- A stage entered above the ceiling: no generation block, one settle call. -/
theorem stage_ceiling (p : Params) (w : World) (s : FillState)
    (hc : w.floatAdd s.plane_bottom p.shift_xyz > p.emitterZ)
    (hlt : s.actualTotalSpheres < toUInt p.totalSpheres) :
    stage p w s = Except.ok
      { s with
        plane_bottom := w.maxZ s.stage
        initialization := true
        stage := s.stage + 1
        trace := s.trace ++ [(s.stage, Call.ClearCache), (s.stage, Call.GetMaxZ),
          (s.stage, Call.DoDynamicsThenSync Duration.settle_frame_time),
          (s.stage, Call.GetMaxZ)] } := by
  simp [stage, generate, settleBlock, FillState.log, hc, hlt]

/-- The stage after which the loop condition is decided, in a generating stage whose batch
fits the `unsigned int` counter. -/
theorem generateBlock_ok (p : Params) (w : World) (s : FillState)
    (h1 : 1 ≤ p.num_template) (h2 : p.num_template < 2 ^ 31)
    (hsum : s.actualTotalSpheres + (w.sample s.stage).length < 2 ^ 32) :
    ∃ l, assignTemplates (clump_types p.num_template) p.num_template s.actualTotalSpheres
          ((w.sample s.stage).length % 2 ^ 32) = some l ∧
      l.length = (w.sample s.stage).length ∧
      (∀ k, k < (w.sample s.stage).length →
        l.get? k = (clump_types p.num_template).get?
          ((s.actualTotalSpheres + k) % toUInt p.num_template)) ∧
      generateBlock p w s = Except.ok
        { s with
          numClumps := s.numClumps + (w.sample s.stage).length
          actualTotalSpheres := (s.numClumps + (w.sample s.stage).length) % 2 ^ 32
          trace := s.trace ++ [(s.stage, Call.SampleBox (w.sample s.stage)),
            (s.stage, Call.AddClumps l (w.sample s.stage)), (s.stage, Call.UpdateClumps),
            (s.stage, Call.GetNumClumps), (s.stage, Call.GetNumClumps)] } := by
  have hu : toUInt p.num_template = p.num_template.toNat :=
    toUInt_of_range (by omega) (by omega)
  have h0 : toUInt p.num_template ≠ 0 := by rw [hu]; omega
  have hlen : (clump_types p.num_template).length = toUInt p.num_template := by
    rw [hu, clump_types_length]
  have hn : (w.sample s.stage).length % 2 ^ 32 = (w.sample s.stage).length :=
    Nat.mod_eq_of_lt (by omega)
  have hcount : (s.actualTotalSpheres + (w.sample s.stage).length) % 2 ^ 32
      - s.actualTotalSpheres = (w.sample s.stage).length := by
    rw [Nat.mod_eq_of_lt hsum]; omega
  obtain ⟨l, hl, hll, hget⟩ := assignFrom_spec (clump_types p.num_template) p.num_template
    h0 hlen (w.sample s.stage).length s.actualTotalSpheres
  have hassign : assignTemplates (clump_types p.num_template) p.num_template
      s.actualTotalSpheres ((w.sample s.stage).length % 2 ^ 32) = some l := by
    rw [assignTemplates, hn, hcount, hl]
  refine ⟨l, hassign, hll, hget, ?_⟩
  simp only [generateBlock, FillState.log]
  rw [hassign]
  simp [solverAddClumps, hll]

/-- A generating stage whose batch fits the `unsigned int` counter, spelled out; the bound
`N` of the consolidation loop has to be defined only if the stage reaches the target. -/
theorem stage_generating (p : Params) (w : World) (s : FillState) (N : Int)
    (h1 : 1 ≤ p.num_template) (h2 : p.num_template < 2 ^ 31)
    (hg : ¬ (w.floatAdd s.plane_bottom p.shift_xyz > p.emitterZ))
    (hsum : s.actualTotalSpheres + (w.sample s.stage).length < 2 ^ 32)
    (hN : ¬ ((s.numClumps + (w.sample s.stage).length) % 2 ^ 32 < toUInt p.totalSpheres) →
      consolidationSteps w p.settle_frame_time = some N) :
    ∃ l, assignTemplates (clump_types p.num_template) p.num_template s.actualTotalSpheres
          ((w.sample s.stage).length % 2 ^ 32) = some l ∧
      l.length = (w.sample s.stage).length ∧
      stage p w s = Except.ok
        { plane_bottom := w.maxZ s.stage
          frame := s.frame + 1
          actualTotalSpheres := (s.numClumps + (w.sample s.stage).length) % 2 ^ 32
          initialization :=
            decide ((s.numClumps + (w.sample s.stage).length) % 2 ^ 32 < toUInt p.totalSpheres)
          numClumps := s.numClumps + (w.sample s.stage).length
          stage := s.stage + 1
          trace := s.trace ++
            ([(s.stage, Call.ClearCache), (s.stage, Call.SampleBox (w.sample s.stage)),
              (s.stage, Call.AddClumps l (w.sample s.stage)), (s.stage, Call.UpdateClumps),
              (s.stage, Call.GetNumClumps), (s.stage, Call.GetNumClumps),
              (s.stage, Call.GetMaxZ), (s.stage, Call.WriteSphereFile FileKind.settling s.frame),
              (s.stage, Call.DoDynamicsThenSync Duration.settle_frame_time),
              (s.stage, Call.GetMaxZ)] ++
             (if (s.numClumps + (w.sample s.stage).length) % 2 ^ 32 < toUInt p.totalSpheres
              then []
              else (consolidation N.toNat 0).map (fun c => (s.stage, c)))) } := by
  obtain ⟨l, hassign, hll, -, hgen⟩ := generateBlock_ok p w (s.log [Call.ClearCache]) h1 h2
    (by simpa [FillState.log] using hsum)
  refine ⟨l, hassign, by simpa [FillState.log] using hll, ?_⟩
  have hgt : generate p w (s.log [Call.ClearCache]) = true := by
    simp [generate, FillState.log, hg]
  simp only [stage, hgt, if_true, hgen]
  simp only [settleBlock, FillState.log]
  by_cases hlt : (s.numClumps + (w.sample s.stage).length) % 2 ^ 32 < toUInt p.totalSpheres
  · simp [-Nat.reducePow, hlt]
  · simp [-Nat.reducePow, hlt, hN hlt]

theorem insertions_append (t u : List (Nat × Call)) :
    insertions (t ++ u) = insertions t ++ insertions u := by
  simp [insertions, List.filterMap_append]

theorem insertions_consolidation (j n : Nat) :
    ∀ i : Int, insertions ((consolidation n i).map (fun c => (j, c))) = [] := by
  induction n with
  | zero => intro i; rfl
  | succ n ih =>
    intro i
    have := ih (i + 1)
    simp only [insertions] at this
    simp [consolidation, insertions, List.filterMap_cons, this]

/-- What a completed settle part leaves behind. -/
theorem settleBlock_ok (p : Params) (w : World) (gen : Bool) (s s' : FillState)
    (h : settleBlock p w gen s = Except.ok s') :
    s'.actualTotalSpheres = s.actualTotalSpheres ∧ s'.numClumps = s.numClumps ∧
    s'.stage = s.stage ∧
    s'.initialization = decide (s.actualTotalSpheres < toUInt p.totalSpheres) ∧
    ∃ N : Int, (s'.initialization = false → consolidationSteps w p.settle_frame_time = some N) ∧
      s'.trace = s.trace ++
        ([Call.GetMaxZ] ++ (if gen = true then [Call.WriteSphereFile FileKind.settling s.frame]
            else []) ++
          [Call.DoDynamicsThenSync Duration.settle_frame_time, Call.GetMaxZ] ++
          (if s'.initialization = false then consolidation N.toNat 0 else [])).map
          (fun c => (s.stage, c)) := by
  by_cases hlt : s.actualTotalSpheres < toUInt p.totalSpheres
  · cases gen
    · simp [settleBlock, FillState.log, hlt] at h
      subst h
      exact ⟨rfl, rfl, rfl, by simp [hlt], 0, by simp, by simp⟩
    · simp [settleBlock, FillState.log, hlt] at h
      subst h
      exact ⟨rfl, rfl, rfl, by simp [hlt], 0, by simp, by simp⟩
  · cases hN : consolidationSteps w p.settle_frame_time with
    | none => cases gen <;> simp [settleBlock, FillState.log, hlt, hN] at h
    | some N =>
      cases gen
      · simp [settleBlock, FillState.log, hlt, hN] at h
        subst h
        exact ⟨rfl, rfl, rfl, by simp [hlt], N, by simp, by simp⟩
      · simp [settleBlock, FillState.log, hlt, hN] at h
        subst h
        exact ⟨rfl, rfl, rfl, by simp [hlt], N, by simp, by simp⟩

/-- A completed stage, taken apart into its generation block and its settle part. -/
theorem stage_ok (p : Params) (w : World) (s s' : FillState)
    (h : stage p w s = Except.ok s') :
    ∃ s1 s2, (if generate p w (s.log [Call.ClearCache]) = true
        then generateBlock p w (s.log [Call.ClearCache])
        else Except.ok (s.log [Call.ClearCache])) = Except.ok s1 ∧
      settleBlock p w (generate p w (s.log [Call.ClearCache])) s1 = Except.ok s2 ∧
      s' = { s2 with stage := s.stage + 1 } := by
  unfold stage at h
  simp only at h
  split at h
  · exact absurd h (by simp)
  · rename_i s1 heq
    split at h
    · exact absurd h (by simp)
    · rename_i s2 heq2
      injection h with h
      exact ⟨s1, s2, heq, heq2, h.symm⟩

theorem generateBlock_fields (p : Params) (w : World) (s s1 : FillState)
    (h : generateBlock p w s = Except.ok s1) :
    ∃ l, s1.trace = s.trace ++ [(s.stage, Call.SampleBox (w.sample s.stage)),
        (s.stage, Call.AddClumps l (w.sample s.stage)), (s.stage, Call.UpdateClumps),
        (s.stage, Call.GetNumClumps), (s.stage, Call.GetNumClumps)] ∧
      s1.stage = s.stage ∧ s1.frame = s.frame ∧
      s1.actualTotalSpheres = s1.numClumps % 2 ^ 32 := by
  unfold generateBlock at h
  simp only at h
  split at h
  · exact absurd h (by simp)
  · rename_i l _
    split at h
    · exact absurd h (by simp)
    · injection h with h
      subst h
      exact ⟨l, by simp [FillState.log], rfl, rfl, rfl⟩

/-- After a stage the loop flag says whether the target is still ahead. -/
theorem stage_initialization (p : Params) (w : World) (s s' : FillState)
    (h : stage p w s = Except.ok s') :
    s'.initialization = decide (s'.actualTotalSpheres < toUInt p.totalSpheres) := by
  obtain ⟨s1, s2, -, h2, rfl⟩ := stage_ok p w s s' h
  obtain ⟨ha, -, -, hi, -⟩ := settleBlock_ok p w _ s1 s2 h2
  simp [hi, ha]

theorem stage_stage (p : Params) (w : World) (s s' : FillState)
    (h : stage p w s = Except.ok s') : s'.stage = s.stage + 1 := by
  obtain ⟨s1, s2, -, -, rfl⟩ := stage_ok p w s s' h
  rfl

/-- The counter `actualTotalSpheres` is the solver's clump count as an `unsigned int`. -/
theorem stage_counter (p : Params) (w : World) (s s' : FillState)
    (h : stage p w s = Except.ok s')
    (hc : s.actualTotalSpheres = s.numClumps % 2 ^ 32) :
    s'.actualTotalSpheres = s'.numClumps % 2 ^ 32 := by
  obtain ⟨s1, s2, h1, h2, rfl⟩ := stage_ok p w s s' h
  obtain ⟨ha, hn, -, -, -⟩ := settleBlock_ok p w _ s1 s2 h2
  show s2.actualTotalSpheres = s2.numClumps % 2 ^ 32
  rw [ha, hn]
  by_cases hg : generate p w (s.log [Call.ClearCache]) = true
  · rw [if_pos hg] at h1
    exact (generateBlock_fields p w _ s1 h1).choose_spec.2.2.2
  · rw [if_neg hg] at h1
    injection h1 with h1
    subst h1
    exact hc

/-! ### Staged loop: runs -/

theorem fillLoop_unfinished_succ (p : Params) (w : World) (fuel : Nat) (s0 s : FillState)
    (h : fillLoop p w (fuel + 1) s0 = Outcome.unfinished s) :
    ∃ s1, s0.initialization = true ∧ stage p w s0 = Except.ok s1 ∧
      fillLoop p w fuel s1 = Outcome.unfinished s := by
  unfold fillLoop at h
  split_ifs at h with h0
  simp only at h
  split at h
  · exact absurd h (by simp)
  · rename_i s1 hs
    exact ⟨s1, by simpa using h0, hs, h⟩

theorem fillLoop_unfinished_zero (p : Params) (w : World) (s0 s : FillState)
    (h : fillLoop p w 0 s0 = Outcome.unfinished s) : s = s0 ∧ s0.initialization = true := by
  unfold fillLoop at h
  split_ifs at h with h0
  simp only at h
  injection h with h
  exact ⟨h.symm, by simpa using h0⟩

/-- While the loop is still running the target is still ahead. -/
theorem unfinished_below_target (p : Params) (w : World) (n : Nat) :
    ∀ s0 s : FillState, s0.actualTotalSpheres < toUInt p.totalSpheres →
      fillLoop p w n s0 = Outcome.unfinished s →
      s.actualTotalSpheres < toUInt p.totalSpheres ∧ s.stage = s0.stage + n ∧
        s.initialization = true := by
  induction n with
  | zero =>
    intro s0 s h0 h
    obtain ⟨rfl, hi⟩ := fillLoop_unfinished_zero p w s0 s h
    exact ⟨h0, rfl, hi⟩
  | succ n ih =>
    intro s0 s h0 h
    obtain ⟨s1, hi, hs, hrest⟩ := fillLoop_unfinished_succ p w n s0 s h
    have hinit : s1.initialization = true := by
      by_contra hc
      rw [fillLoop_done p w n s1 (by simpa using hc)] at hrest
      exact absurd hrest (by simp)
    have h1 : s1.actualTotalSpheres < toUInt p.totalSpheres := by
      have := stage_initialization p w s0 s1 hs
      rw [hinit] at this
      simpa using this.symm
    obtain ⟨a, b, c⟩ := ih s1 s h1 hrest
    refine ⟨a, ?_, c⟩
    rw [b, stage_stage p w s0 s1 hs]; omega

/-- A state in which the loop is still running after `n` stages. -/
theorem unfinished_state (p : Params) (w : World) (n : Nat) :
    ∀ s0 s : FillState, fillLoop p w n s0 = Outcome.unfinished s →
      s.initialization = true ∧ s.stage = s0.stage + n ∧
        (0 < n → s.actualTotalSpheres < toUInt p.totalSpheres) := by
  induction n with
  | zero =>
    intro s0 s h
    obtain ⟨rfl, hi⟩ := fillLoop_unfinished_zero p w s0 s h
    exact ⟨hi, rfl, fun h => absurd h (Nat.lt_irrefl 0)⟩
  | succ n ih =>
    intro s0 s h
    obtain ⟨s1, _, hs, hrest⟩ := fillLoop_unfinished_succ p w n s0 s h
    have hinit : s1.initialization = true := by
      by_contra hc
      rw [fillLoop_done p w n s1 (by simpa using hc)] at hrest
      exact absurd hrest (by simp)
    have h1 : s1.actualTotalSpheres < toUInt p.totalSpheres := by
      have := stage_initialization p w s0 s1 hs
      rw [hinit] at this
      simpa using this.symm
    obtain ⟨a, b, c⟩ := unfinished_below_target p w n s1 s h1 hrest
    exact ⟨c, by rw [b, stage_stage p w s0 s1 hs]; omega, fun _ => a⟩

theorem fillLoop_append (p : Params) (w : World) (j m : Nat) :
    ∀ s0 s : FillState, fillLoop p w j s0 = Outcome.unfinished s →
      fillLoop p w (j + m) s0 = fillLoop p w m s := by
  induction j with
  | zero =>
    intro s0 s h
    obtain ⟨rfl, _⟩ := fillLoop_unfinished_zero p w s0 s h
    simp
  | succ j ih =>
    intro s0 s h
    obtain ⟨s1, hi, hs, hrest⟩ := fillLoop_unfinished_succ p w j s0 s h
    have : j + 1 + m = (j + m) + 1 := by omega
    rw [this, fillLoop_succ p w (j + m) s0 s1 hi hs]
    exact ih s1 s hrest

theorem fillLoop_truncate (p : Params) (w : World) (j m : Nat) :
    ∀ s0 s : FillState, fillLoop p w (j + m) s0 = Outcome.unfinished s →
      ∃ sj, fillLoop p w j s0 = Outcome.unfinished sj := by
  induction j with
  | zero =>
    intro s0 s h
    have hi : s0.initialization = true := by
      by_contra hc
      rw [fillLoop_done p w _ s0 (by simpa using hc)] at h
      exact absurd h (by simp)
    exact ⟨s0, fillLoop_zero p w s0 hi⟩
  | succ j ih =>
    intro s0 s h
    have : j + 1 + m = (j + m) + 1 := by omega
    rw [this] at h
    obtain ⟨s1, hi, hs, hrest⟩ := fillLoop_unfinished_succ p w (j + m) s0 s h
    obtain ⟨sj, hsj⟩ := ih s1 s hrest
    exact ⟨sj, by rw [fillLoop_succ p w j s0 s1 hi hs]; exact hsj⟩

theorem run_counter (p : Params) (w : World) (n : Nat) :
    ∀ s0 s : FillState, s0.actualTotalSpheres = s0.numClumps % 2 ^ 32 →
      fillLoop p w n s0 = Outcome.unfinished s →
      s.actualTotalSpheres = s.numClumps % 2 ^ 32 := by
  induction n with
  | zero =>
    intro s0 s h0 h
    obtain ⟨rfl, -⟩ := fillLoop_unfinished_zero p w s0 s h
    exact h0
  | succ n ih =>
    intro s0 s h0 h
    obtain ⟨s1, -, hs, hrest⟩ := fillLoop_unfinished_succ p w n s0 s h
    exact ih s1 s (stage_counter p w s0 s1 hs h0) hrest

/-! ### Staged loop: the bound of the consolidation loop -/

theorem truncate_of_nonneg (x : ℚ) (h : 0 ≤ x) : truncate x = ⌊x⌋ := by
  unfold truncate
  rw [Rat.floor_def, Int.tdiv_eq_ediv (Rat.num_nonneg.mpr h) (Int.ofNat_nonneg _)]

theorem truncate_neg (x : ℚ) : truncate (-x) = -truncate x := by
  unfold truncate
  simp

/-- Truncation toward zero, from below: for `0 ≤ x` the result is the integer `n` with
`n ≤ x < n + 1`. -/
theorem truncate_nonneg (x : ℚ) (h : 0 ≤ x) :
    ((truncate x : Int) : ℚ) ≤ x ∧ x < (truncate x : Int) + 1 := by
  rw [truncate_of_nonneg x h]
  exact ⟨Int.floor_le x, Int.lt_floor_add_one x⟩

/-- Truncation toward zero, from above: for `x ≤ 0` the result is the integer `n` with
`n - 1 < x ≤ n`. -/
theorem truncate_nonpos (x : ℚ) (h : x ≤ 0) :
    x ≤ ((truncate x : Int) : ℚ) ∧ ((truncate x : Int) : ℚ) - 1 < x := by
  have h0 : 0 ≤ -x := by linarith
  obtain ⟨a, b⟩ := truncate_nonneg (-x) h0
  rw [truncate_neg] at a b
  push_cast at a b
  constructor <;> linarith

theorem truncate_eq (x : ℚ) (n : Int) (h0 : 0 ≤ x) (h1 : (n : ℚ) ≤ x) (h2 : x < n + 1) :
    truncate x = n := by
  rw [truncate_of_nonneg x h0]
  exact Int.floor_eq_iff.mpr ⟨h1, h2⟩

theorem consolidationSteps_eq (w : World) (sft : ℚ) (n : Int) (hs : sft ≠ 0)
    (h0 : 0 ≤ w.doubleDiv double04 sft) (h1 : (n : ℚ) ≤ w.doubleDiv double04 sft)
    (h2 : w.doubleDiv double04 sft < n + 1) (hr : InInt n) :
    consolidationSteps w sft = some n := by
  unfold consolidationSteps
  rw [if_neg hs]
  simp only
  rw [truncate_eq _ n h0 h1 h2, if_pos hr]

theorem consolidationSteps_some (w : World) (sft : ℚ) (N : Int)
    (h : consolidationSteps w sft = some N) :
    sft ≠ 0 ∧ N = truncate (w.doubleDiv double04 sft) ∧ InInt N := by
  by_cases h0 : sft = 0
  · simp [consolidationSteps, h0] at h
  · simp only [consolidationSteps, if_neg h0] at h
    by_cases h1 : InInt (truncate (w.doubleDiv double04 sft))
    · rw [if_pos h1] at h
      injection h with h
      exact ⟨h0, h.symm, h ▸ h1⟩
    · rw [if_neg h1] at h
      exact absurd h (by simp)

theorem demoDiv_demo : demoDiv double04 float001 = 5629499660042243 / 140737488355328 := by
  simp [demoDiv]

theorem consolidationSteps_demo (w : World) (h : w.doubleDiv = demoDiv) :
    consolidationSteps w float001 = some 40 := by
  apply consolidationSteps_eq
  · norm_num [float001]
  · rw [h, demoDiv_demo]; norm_num
  · rw [h, demoDiv_demo]; norm_num
  · rw [h, demoDiv_demo]; norm_num
  · constructor <;> norm_num

/-! ### Staged loop: round-robin template assignment -/

theorem assignTemplates_spec (num_template : Int) (a m : Nat)
    (h1 : 1 ≤ num_template) (h2 : num_template < 2 ^ 31) (hsum : a + m < 2 ^ 32) :
    ∃ l, assignTemplates (clump_types num_template) num_template a (m % 2 ^ 32) = some l ∧
      l.length = m ∧
      ∀ k, k < m → l.get? k = (clump_types num_template).get? ((a + k) % num_template.toNat) := by
  have hu : toUInt num_template = num_template.toNat :=
    toUInt_of_range (by omega) (by omega)
  have h0 : toUInt num_template ≠ 0 := by rw [hu]; omega
  have hlen : (clump_types num_template).length = toUInt num_template := by
    rw [hu, clump_types_length]
  have hn : m % 2 ^ 32 = m := Nat.mod_eq_of_lt (by omega)
  have hcount : (a + m) % 2 ^ 32 - a = m := by
    rw [Nat.mod_eq_of_lt hsum]; omega
  obtain ⟨l, hl, hll, hget⟩ := assignFrom_spec (clump_types num_template) num_template
    h0 hlen m a
  refine ⟨l, ?_, hll, fun k hk => by rw [← hu]; exact hget k hk⟩
  rw [assignTemplates, hn, hcount, hl]

/-- C8. With a pool of `num_template ≥ 1` templates, `clump_types` holds exactly
`num_template` of them, and for every offset `actualTotalSpheres = a` and every number
`num_clumps = m` of sampled points with `a + m` not overflowing `unsigned int`, the template
loop builds a list of exactly `m` entries whose `k`-th entry is
`clump_types[(a + k) mod num_template]`, the index being in bounds. In every generating stage
reached by the loop (with a defined bound of the consolidation loop, so that the stage
completes) the stage hands this list to `AddClumps` together with the sampled points, entry
by entry in the same order, and ends with `actualTotalSpheres` advanced by `num_clumps`; so
the list of the next stage, whatever its size `m`, goes on in the cycle where this one
stopped: entry `num_clumps + k` of the two lists put end to end is
`clump_types[(actualTotalSpheres + num_clumps + k) mod num_template]`. -/
theorem round_robin_assignment (p : Params) (w : World)
    (h1 : 1 ≤ p.num_template) (h2 : p.num_template < 2 ^ 31) :
    (clump_types p.num_template).length = p.num_template.toNat ∧
    (∀ a m : Nat, a + m < 2 ^ 32 →
      ∃ l, assignTemplates (clump_types p.num_template) p.num_template a (m % 2 ^ 32) = some l ∧
        l.length = m ∧
        ∀ k, k < m →
          (a + k) % p.num_template.toNat < (clump_types p.num_template).length ∧
          l.get? k = (clump_types p.num_template).get? ((a + k) % p.num_template.toNat)) ∧
    (∀ (j : Nat) (s : FillState) (N : Int),
      fillLoop p w j (fillInit p) = Outcome.unfinished s →
      generate p w s = true →
      s.actualTotalSpheres + (w.sample s.stage).length < 2 ^ 32 →
      consolidationSteps w p.settle_frame_time = some N →
      ∃ l s', assignTemplates (clump_types p.num_template) p.num_template s.actualTotalSpheres
            ((w.sample s.stage).length % 2 ^ 32) = some l ∧
        l.length = (w.sample s.stage).length ∧
        stage p w s = Except.ok s' ∧
        (s.stage, Call.AddClumps l (w.sample s.stage)) ∈ s'.trace ∧
        insertions s'.trace = insertions s.trace ++ [l.length] ∧
        s'.actualTotalSpheres = s.actualTotalSpheres + (w.sample s.stage).length ∧
        ∀ m, s'.actualTotalSpheres + m < 2 ^ 32 →
          ∃ l2, assignTemplates (clump_types p.num_template) p.num_template
              s'.actualTotalSpheres (m % 2 ^ 32) = some l2 ∧ l2.length = m ∧
            ∀ k, k < m →
              (l ++ l2).get? ((w.sample s.stage).length + k)
                = (clump_types p.num_template).get?
                  ((s.actualTotalSpheres + ((w.sample s.stage).length + k))
                    % p.num_template.toNat)) := by
  have hmod : ∀ i : Nat, i % p.num_template.toNat < (clump_types p.num_template).length := by
    intro i
    rw [clump_types_length]
    exact Nat.mod_lt _ (by omega)
  refine ⟨clump_types_length _, ?_, ?_⟩
  · intro a m ham
    obtain ⟨l, hassign, hll, hget⟩ := assignTemplates_spec p.num_template a m h1 h2 ham
    exact ⟨l, hassign, hll, fun k hk => ⟨hmod _, hget k hk⟩⟩
  · intro j s N hrun hg hsum hN
    have hceil : ¬ (w.floatAdd s.plane_bottom p.shift_xyz > p.emitterZ) := by
      intro h; simp [generate, h] at hg
    have hcnt : s.actualTotalSpheres = s.numClumps % 2 ^ 32 :=
      run_counter p w j (fillInit p) s rfl hrun
    obtain ⟨l, hassign, hll, hstage⟩ := stage_generating p w s N h1 h2 hceil hsum (fun _ => hN)
    have hadv : (s.numClumps + (w.sample s.stage).length) % 2 ^ 32
        = s.actualTotalSpheres + (w.sample s.stage).length := by omega
    refine ⟨l, _, hassign, hll, hstage, ?_, ?_, hadv, ?_⟩
    · simp
    · simp only [insertions_append]
      have hcons : insertions (if (s.numClumps + (w.sample s.stage).length) % 2 ^ 32
            < toUInt p.totalSpheres then []
          else (consolidation N.toNat 0).map (fun c => (s.stage, c))) = [] := by
        split_ifs
        · rfl
        · exact insertions_consolidation _ _ _
      rw [hcons]
      simp [insertions, hll]
    · intro m hm
      simp only at hm
      rw [hadv] at hm
      obtain ⟨l2, hassign2, hll2, hget2⟩ := assignTemplates_spec p.num_template
        (s.actualTotalSpheres + (w.sample s.stage).length) m h1 h2 hm
      refine ⟨l2, by simp only; rw [hadv]; exact hassign2, hll2, fun k hk => ?_⟩
      rw [← hll, List.get?_eq_getElem?, List.getElem?_append_right (by omega),
        Nat.add_sub_cancel_left, ← List.get?_eq_getElem?, hget2 k hk, hll, Nat.add_assoc]

theorem round_robin_assignment_witness :
    (1 ≤ threeTemplates.num_template ∧ threeTemplates.num_template < 2 ^ 31) ∧
    assignTemplates (clump_types 3) 3 0 (10 % 2 ^ 32) = some [0, 1, 2, 0, 1, 2, 0, 1, 2, 0] ∧
    ∃ s, fillLoop threeTemplates worldTen 1 (fillInit threeTemplates) = Outcome.unfinished s ∧
      generate threeTemplates worldTen s = true ∧
      s.actualTotalSpheres = 10 ∧
      ∃ l s', assignTemplates (clump_types 3) 3 10 (10 % 2 ^ 32) = some l ∧
        l = [1, 2, 0, 1, 2, 0, 1, 2, 0, 1] ∧
        stage threeTemplates worldTen s = Except.ok s' ∧
        (s.stage, Call.AddClumps l (worldTen.sample s.stage)) ∈ s'.trace ∧
        s'.actualTotalSpheres = 20 := by
  obtain ⟨s1, hs, h1i, h1a, h1p, h1s⟩ : ∃ s1,
      stage threeTemplates worldTen (fillInit threeTemplates) = Except.ok s1 ∧
      s1.initialization = true ∧ s1.actualTotalSpheres = 10 ∧ s1.plane_bottom = 1 / 2 ∧
      s1.stage = 1 := by
    obtain ⟨l, -, -, hs⟩ := stage_generating threeTemplates worldTen (fillInit threeTemplates) 0
      (by decide) (by decide)
      (by norm_num [fillInit, threeTemplates, demoParams, worldTen, float001, double080])
      (by simp [fillInit, worldTen])
      (fun h => absurd (by simp [fillInit, worldTen, threeTemplates, demoParams, toUInt]) h)
    exact ⟨_, hs, by simp [fillInit, worldTen, threeTemplates, demoParams, toUInt],
      by simp [fillInit, worldTen], rfl, rfl⟩
  have hrun : fillLoop threeTemplates worldTen 1 (fillInit threeTemplates)
      = Outcome.unfinished s1 := by
    rw [fillLoop_succ _ _ 0 _ s1 rfl hs]; exact fillLoop_zero _ _ s1 h1i
  have hg : generate threeTemplates worldTen s1 = true := by
    simp only [generate, h1p]
    norm_num [threeTemplates, demoParams, worldTen, double080]
  have hsum : s1.actualTotalSpheres + (worldTen.sample s1.stage).length < 2 ^ 32 := by
    rw [h1a]; simp [worldTen]
  have hN : consolidationSteps worldTen threeTemplates.settle_frame_time = some 40 :=
    consolidationSteps_demo worldTen rfl
  obtain ⟨-, -, hstg⟩ := round_robin_assignment threeTemplates worldTen (by decide) (by decide)
  obtain ⟨l, s', hl, -, hstage, hmem, -, hadv, -⟩ := hstg 1 s1 40 hrun hg hsum hN
  have hl' : assignTemplates (clump_types 3) 3 10 (10 % 2 ^ 32) = some l := by
    rw [h1a] at hl
    simpa [worldTen, threeTemplates, demoParams] using hl
  have hval : assignTemplates (clump_types 3) 3 10 (10 % 2 ^ 32)
      = some [1, 2, 0, 1, 2, 0, 1, 2, 0, 1] := by decide
  refine ⟨⟨by decide, by decide⟩, by decide, s1, hrun, hg, h1a, l, s', hl', ?_, hstage, hmem, ?_⟩
  · rw [hval] at hl'
    exact (Option.some.inj hl').symm
  · rw [hadv, h1a]; simp [worldTen]

/-! ### Staged loop: ceiling stages -/

/-- C6. Every stage of the staged loop that is entered with
`plane_bottom + shift_xyz > emitterZ`, the comparison as the code evaluates it (for a target
`totalSpheres ≥ 1`): the generation flag is false, the stage makes no `SampleBox` and no
`AddClumps` call and writes no snapshot, `actualTotalSpheres`, the solver's clump count and
`frame` are unchanged, its calls are exactly `ClearCache`, the `max_z` query, one
`DoDynamicsThenSync(settle_frame_time)` and the `max_z` query that refreshes `plane_bottom`,
and the loop condition then still holds. -/
theorem ceiling_stage (p : Params) (w : World) (n : Nat) (s : FillState)
    (htot : 1 ≤ p.totalSpheres) (hint : p.totalSpheres < 2 ^ 31)
    (hrun : fillLoop p w n (fillInit p) = Outcome.unfinished s)
    (hc : w.floatAdd s.plane_bottom p.shift_xyz > p.emitterZ) :
    generate p w s = false ∧
    ∃ s', stage p w s = Except.ok s' ∧
      s'.trace = s.trace ++ [(s.stage, Call.ClearCache), (s.stage, Call.GetMaxZ),
        (s.stage, Call.DoDynamicsThenSync Duration.settle_frame_time),
        (s.stage, Call.GetMaxZ)] ∧
      s'.actualTotalSpheres = s.actualTotalSpheres ∧
      s'.numClumps = s.numClumps ∧
      s'.frame = s.frame ∧
      s'.plane_bottom = w.maxZ s.stage ∧
      s'.stage = s.stage + 1 ∧
      s'.initialization = true := by
  have hlt : s.actualTotalSpheres < toUInt p.totalSpheres :=
    (unfinished_below_target p w n (fillInit p) s (toUInt_pos htot hint) hrun).1
  refine ⟨by simp [generate, hc], _, stage_ceiling p w s hc hlt, rfl, rfl, rfl, rfl, rfl, rfl, rfl⟩

theorem ceiling_stage_witness :
    ∃ s, (1 ≤ demoParams.totalSpheres ∧ demoParams.totalSpheres < 2 ^ 31 ∧
        fillLoop demoParams exhaustedWorld 1 (fillInit demoParams) = Outcome.unfinished s ∧
        exhaustedWorld.floatAdd s.plane_bottom demoParams.shift_xyz > demoParams.emitterZ) ∧
      generate demoParams exhaustedWorld s = false ∧
      ∃ s', stage demoParams exhaustedWorld s = Except.ok s' ∧
        s'.trace = s.trace ++ [(s.stage, Call.ClearCache), (s.stage, Call.GetMaxZ),
          (s.stage, Call.DoDynamicsThenSync Duration.settle_frame_time),
          (s.stage, Call.GetMaxZ)] ∧
        s'.actualTotalSpheres = s.actualTotalSpheres ∧
        s'.numClumps = s.numClumps ∧
        s'.frame = s.frame ∧
        s'.plane_bottom = exhaustedWorld.maxZ s.stage ∧
        s'.stage = s.stage + 1 ∧
        s'.initialization = true := by
  obtain ⟨s1, hs, h1i, h1p⟩ : ∃ s1,
      stage demoParams exhaustedWorld (fillInit demoParams) = Except.ok s1 ∧
      s1.initialization = true ∧ s1.plane_bottom = 1 := by
    obtain ⟨l, -, -, hs⟩ := stage_generating demoParams exhaustedWorld (fillInit demoParams) 0
      (by decide) (by decide)
      (by norm_num [fillInit, demoParams, exhaustedWorld, float001, double080])
      (by simp [fillInit, exhaustedWorld])
      (fun h => absurd (by simp [fillInit, exhaustedWorld, demoParams, toUInt]) h)
    exact ⟨_, hs, by simp [fillInit, exhaustedWorld, demoParams, toUInt], rfl⟩
  have hrun : fillLoop demoParams exhaustedWorld 1 (fillInit demoParams)
      = Outcome.unfinished s1 := by
    rw [fillLoop_succ _ _ 0 _ s1 rfl hs]; exact fillLoop_zero _ _ s1 h1i
  have hc : exhaustedWorld.floatAdd s1.plane_bottom demoParams.shift_xyz
      > demoParams.emitterZ := by
    rw [h1p]; norm_num [demoParams, exhaustedWorld, double080]
  exact ⟨s1, ⟨by decide, by decide, hrun, hc⟩,
    ceiling_stage demoParams exhaustedWorld 1 s1 (by decide) (by decide) hrun hc⟩

/-! ### Staged loop: an exhausted fill region -/

theorem insertions_ceilingStages (n : Nat) : ∀ k, insertions (ceilingStages n k) = [] := by
  induction n with
  | zero => intro k; rfl
  | succ n ih =>
    intro k
    rw [ceilingStages, insertions_append, ih (k + 1)]
    simp [insertions]

/-- Once the region is and stays exhausted below the target, the loop only repeats
ceiling stages. -/
theorem exhausted_loop (p : Params) (w : World) (fuel : Nat) :
    ∀ s : FillState, s.initialization = true →
      s.actualTotalSpheres < toUInt p.totalSpheres →
      w.floatAdd s.plane_bottom p.shift_xyz > p.emitterZ →
      (∀ k, s.stage ≤ k → w.floatAdd (w.maxZ k) p.shift_xyz > p.emitterZ) →
      ∃ s', fillLoop p w fuel s = Outcome.unfinished s' ∧
        s'.actualTotalSpheres = s.actualTotalSpheres ∧ s'.stage = s.stage + fuel ∧
        s'.trace = s.trace ++ ceilingStages fuel s.stage := by
  induction fuel with
  | zero =>
    intro s hi _ _ _
    exact ⟨s, fillLoop_zero p w s hi, rfl, rfl, by simp [ceilingStages]⟩
  | succ fuel ih =>
    intro s hi hlt hc hw
    obtain ⟨s1, hs, h1i, h1a, h1p, h1s, h1t⟩ : ∃ s1, stage p w s = Except.ok s1 ∧
        s1.initialization = true ∧ s1.actualTotalSpheres = s.actualTotalSpheres ∧
        s1.plane_bottom = w.maxZ s.stage ∧ s1.stage = s.stage + 1 ∧
        s1.trace = s.trace ++ [(s.stage, Call.ClearCache), (s.stage, Call.GetMaxZ),
          (s.stage, Call.DoDynamicsThenSync Duration.settle_frame_time),
          (s.stage, Call.GetMaxZ)] :=
      ⟨_, stage_ceiling p w s hc hlt, rfl, rfl, rfl, rfl, rfl⟩
    obtain ⟨s', hrun, hact, hst, htr⟩ := ih s1 h1i (by rw [h1a]; exact hlt)
      (by rw [h1p]; exact hw s.stage (Nat.le_refl _))
      (fun k hk => hw k (by rw [h1s] at hk; omega))
    refine ⟨s', ?_, by rw [hact, h1a], by rw [hst, h1s]; omega, ?_⟩
    · rw [fillLoop_succ p w fuel s s1 hi hs]; exact hrun
    · rw [htr, h1t, h1s]; simp [ceilingStages]

/-- The loop exits only right after a stage that ends at or above the target. -/
theorem fillLoop_done_stage (p : Params) (w : World) (fuel : Nat) :
    ∀ s s' : FillState, s.initialization = true → fillLoop p w fuel s = Outcome.done s' →
      ∃ j sj, j < fuel ∧ fillLoop p w j s = Outcome.unfinished sj ∧
        stage p w sj = Except.ok s' ∧ toUInt p.totalSpheres ≤ s'.actualTotalSpheres := by
  induction fuel with
  | zero =>
    intro s s' hi h
    rw [fillLoop_zero p w s hi] at h
    exact absurd h (by simp)
  | succ fuel ih =>
    intro s s' hi h
    cases hs : stage p w s with
    | error e =>
      simp [fillLoop, hi, hs] at h
    | ok s1 =>
      rw [fillLoop_succ p w fuel s s1 hi hs] at h
      by_cases h1 : s1.initialization = true
      · obtain ⟨j, sj, hj, hrun, hst, hfull⟩ := ih s1 s' h1 h
        exact ⟨j + 1, sj, by omega, by rw [fillLoop_succ p w j s s1 hi hs]; exact hrun,
          hst, hfull⟩
      · have h1f : s1.initialization = false := by simpa using h1
        rw [fillLoop_done p w fuel s1 h1f] at h
        injection h with h
        subst h
        refine ⟨0, s, by omega, fillLoop_zero p w s hi, hs, ?_⟩
        have := stage_initialization p w s s1 hs
        rw [h1f] at this
        have h2 : ¬ s1.actualTotalSpheres < toUInt p.totalSpheres := by simpa using this.symm
        omega

/-- C4 (amended). The staged loop has no exit on exhaustion. From any state in which the loop
is running, it is found exited after `fuel` further stages only if one of these stages ended
with `actualTotalSpheres ≥ totalSpheres`, the loop having run up to that stage and exited
right after it. And when the target is still ahead (`actualTotalSpheres < totalSpheres`) and
the fill region is and stays exhausted (`plane_bottom + shift_xyz > emitterZ`, the comparison
as the code evaluates it, now and for every later reading of the maximum height), the loop is
still running after any number `fuel` of further stages: each of them makes one settle call
and no insertion, `actualTotalSpheres` does not change, and the settle-only phase is not
reached. -/
theorem exhausted_region_never_exits (p : Params) (w : World) (s : FillState) (fuel : Nat)
    (hi : s.initialization = true) :
    (∀ s', fillLoop p w fuel s = Outcome.done s' →
      ∃ j sj, j < fuel ∧ fillLoop p w j s = Outcome.unfinished sj ∧
        stage p w sj = Except.ok s' ∧ toUInt p.totalSpheres ≤ s'.actualTotalSpheres) ∧
    (s.actualTotalSpheres < toUInt p.totalSpheres →
      w.floatAdd s.plane_bottom p.shift_xyz > p.emitterZ →
      (∀ k, s.stage ≤ k → w.floatAdd (w.maxZ k) p.shift_xyz > p.emitterZ) →
      ∃ s', fillLoop p w fuel s = Outcome.unfinished s' ∧
        s'.actualTotalSpheres = s.actualTotalSpheres ∧ s'.stage = s.stage + fuel ∧
        s'.trace = s.trace ++ ceilingStages fuel s.stage ∧
        insertions s'.trace = insertions s.trace) := by
  refine ⟨fun s' h => fillLoop_done_stage p w fuel s s' hi h, fun hlt hc hw => ?_⟩
  obtain ⟨s', a, b, c, d⟩ := exhausted_loop p w fuel s hi hlt hc hw
  exact ⟨s', a, b, c, d, by rw [d, insertions_append, insertions_ceilingStages]; simp⟩

theorem exhausted_region_never_exits_witness :
    (fillInit { demoParams with plane_bottom := 1 }).initialization = true ∧
    (fillInit { demoParams with plane_bottom := 1 }).actualTotalSpheres
      < toUInt demoParams.totalSpheres ∧
    exhaustedWorld.floatAdd (fillInit { demoParams with plane_bottom := 1 }).plane_bottom
      demoParams.shift_xyz > demoParams.emitterZ ∧
    (∀ k, exhaustedWorld.floatAdd (exhaustedWorld.maxZ k) demoParams.shift_xyz
      > demoParams.emitterZ) ∧
    ∃ s', fillLoop { demoParams with plane_bottom := 1 } exhaustedWorld 5
        (fillInit { demoParams with plane_bottom := 1 }) = Outcome.unfinished s' ∧
      s'.actualTotalSpheres = (fillInit { demoParams with plane_bottom := 1 }).actualTotalSpheres ∧
      s'.stage = (fillInit { demoParams with plane_bottom := 1 }).stage + 5 ∧
      s'.trace = (fillInit { demoParams with plane_bottom := 1 }).trace ++
        ceilingStages 5 (fillInit { demoParams with plane_bottom := 1 }).stage ∧
      insertions s'.trace = insertions (fillInit { demoParams with plane_bottom := 1 }).trace :=
  ⟨rfl, by decide, by norm_num [fillInit, demoParams, exhaustedWorld, double080],
    fun _ => by norm_num [exhaustedWorld, demoParams, double080],
    (exhausted_region_never_exits { demoParams with plane_bottom := 1 } exhaustedWorld
      (fillInit { demoParams with plane_bottom := 1 }) 5 rfl).2 (by decide)
      (by norm_num [fillInit, demoParams, exhaustedWorld, double080])
      (fun _ _ => by norm_num [exhaustedWorld, demoParams, double080])⟩

/-- C4 as stated fails: with the demo's constants, a sampler returning ten points per call
and a maximum height that always reads `1` (so that after the first stage
`plane_bottom + shift_xyz > emitterZ` while 10 of the 400000 instances are placed), the loop
neither exits nor aborts, whatever the number of stages allowed. -/
theorem exhausted_region_counterexample :
    (∀ k, exhaustedWorld.floatAdd (exhaustedWorld.maxZ k) demoParams.shift_xyz
      > demoParams.emitterZ) ∧
    (¬ ∃ fuel s, fillLoop demoParams exhaustedWorld fuel (fillInit demoParams)
      = Outcome.done s) ∧
    (¬ ∃ fuel s, fillLoop demoParams exhaustedWorld fuel (fillInit demoParams)
      = Outcome.fault s) := by
  have hw : ∀ k, exhaustedWorld.floatAdd (exhaustedWorld.maxZ k) demoParams.shift_xyz
      > demoParams.emitterZ :=
    fun _ => by norm_num [exhaustedWorld, demoParams, double080]
  have key : ∀ fuel, ∃ s, fillLoop demoParams exhaustedWorld fuel (fillInit demoParams)
      = Outcome.unfinished s := by
    intro fuel
    cases fuel with
    | zero => exact ⟨_, fillLoop_zero _ _ _ rfl⟩
    | succ fuel =>
      obtain ⟨s1, hs, h1i, h1a, h1p⟩ : ∃ s1,
          stage demoParams exhaustedWorld (fillInit demoParams) = Except.ok s1 ∧
          s1.initialization = true ∧ s1.actualTotalSpheres < toUInt demoParams.totalSpheres ∧
          s1.plane_bottom = 1 := by
        obtain ⟨l, -, -, hs⟩ := stage_generating demoParams exhaustedWorld (fillInit demoParams) 0
          (by decide) (by decide)
          (by norm_num [fillInit, demoParams, exhaustedWorld, float001, double080])
          (by simp [fillInit, exhaustedWorld])
          (fun h => absurd (by simp [fillInit, exhaustedWorld, demoParams, toUInt]) h)
        exact ⟨_, hs, by simp [fillInit, exhaustedWorld, demoParams, toUInt],
          by simp [fillInit, exhaustedWorld, demoParams, toUInt], rfl⟩
      rw [fillLoop_succ _ _ fuel _ s1 rfl hs]
      obtain ⟨s', h, -⟩ := exhausted_loop demoParams exhaustedWorld fuel s1 h1i h1a
        (by rw [h1p]; norm_num [demoParams, exhaustedWorld, double080]) (fun k _ => hw k)
      exact ⟨s', h⟩
  refine ⟨hw, ?_, ?_⟩
  · rintro ⟨fuel, s, h⟩
    obtain ⟨s', h'⟩ := key fuel
    rw [h'] at h
    exact absurd h (by simp)
  · rintro ⟨fuel, s, h⟩
    obtain ⟨s', h'⟩ := key fuel
    rw [h'] at h
    exact absurd h (by simp)

/-! ### Staged loop: a reachable target -/

theorem count_settle_consolidation (n : Nat) :
    ∀ i : Int, (consolidation n i).count (Call.DoDynamicsThenSync Duration.settle_frame_time)
      = n := by
  induction n with
  | zero => intro i; rfl
  | succ n ih => intro i; simp [consolidation, List.count_cons, ih (i + 1)]

theorem mem_consolidation (n : Nat) :
    ∀ (i : Int) (c : Call), c ∈ consolidation n i →
      c = Call.DoDynamicsThenSync Duration.settle_frame_time ∨
      ∃ k : Int, c = Call.WriteSphereFile FileKind.settling k := by
  induction n with
  | zero => intro i c h; simp [consolidation] at h
  | succ n ih =>
    intro i c h
    simp only [consolidation, List.mem_cons] at h
    rcases h with h | h | h
    · exact Or.inl h
    · exact Or.inr ⟨i, h⟩
    · exact ih (i + 1) c h

theorem placed_ge (w : World) (c : Nat) (h : ∀ k, c ≤ (w.sample k).length) :
    ∀ k, c * k ≤ placed w k := by
  intro k
  induction k with
  | zero => simp [placed]
  | succ k ih =>
    have := h k
    simp only [placed]
    rw [Nat.mul_succ]
    omega

/-- One generating stage preserves `FillInv` and ends with the consolidation calls exactly
when the target is reached; the bound `N` of the consolidation loop has to be defined only
in that case. -/
theorem generating_step (p : Params) (w : World) (N : Int)
    (h1 : 1 ≤ p.num_template) (h2 : p.num_template < 2 ^ 31)
    (ht1 : 1 ≤ p.totalSpheres) (ht2 : p.totalSpheres < 2 ^ 31)
    (hg : ∀ k, ¬ (w.floatAdd (w.maxZ k) p.shift_xyz > p.emitterZ))
    (hfit : ∀ k, (w.sample k).length < 2 ^ 31)
    (j : Nat) (s : FillState) (hinv : FillInv p w j s)
    (hbelow : (placed w j : Int) < p.totalSpheres)
    (hN : ¬ ((placed w (j + 1) : Int) < p.totalSpheres) →
      consolidationSteps w p.settle_frame_time = some N) :
    ∃ s' pre, stage p w s = Except.ok s' ∧ FillInv p w (j + 1) s' ∧
      s'.initialization = decide ((placed w (j + 1) : Int) < p.totalSpheres) ∧
      s'.trace = pre ++
        (if (placed w (j + 1) : Int) < p.totalSpheres then []
         else (consolidation N.toNat 0).map (fun c => (j, c))) ∧
      insertions pre = insertions s'.trace := by
  obtain ⟨hst, hact, hnum, hceil, hfr, hins⟩ := hinv
  have hfitj := hfit j
  have hsum : s.actualTotalSpheres + (w.sample s.stage).length < 2 ^ 32 := by
    rw [hact, hst]; omega
  have hmod : (s.numClumps + (w.sample s.stage).length) % 2 ^ 32 = placed w (j + 1) := by
    rw [hnum, hst, placed]; exact Nat.mod_eq_of_lt (by omega)
  have hu : toUInt p.totalSpheres = p.totalSpheres.toNat :=
    toUInt_of_range (by omega) (by omega)
  have hiff : (placed w (j + 1) < toUInt p.totalSpheres)
      ↔ ((placed w (j + 1) : Int) < p.totalSpheres) := by
    rw [hu]; omega
  obtain ⟨l, -, hl, hstage⟩ := stage_generating p w s N h1 h2 hceil hsum
    (fun h => hN (fun h' => h (by rw [hmod]; exact hiff.2 h')))
  rw [hmod] at hstage
  refine ⟨_, s.trace ++ [(s.stage, Call.ClearCache), (s.stage, Call.SampleBox (w.sample s.stage)),
      (s.stage, Call.AddClumps l (w.sample s.stage)), (s.stage, Call.UpdateClumps),
      (s.stage, Call.GetNumClumps), (s.stage, Call.GetNumClumps),
      (s.stage, Call.GetMaxZ), (s.stage, Call.WriteSphereFile FileKind.settling s.frame),
      (s.stage, Call.DoDynamicsThenSync Duration.settle_frame_time),
      (s.stage, Call.GetMaxZ)], hstage, ?_, ?_, ?_, ?_⟩
  · refine ⟨by simp [hst], rfl, by simp [hnum, hst, placed], by simpa [hst] using hg j,
      by simp [hfr], ?_⟩
    simp only [insertions_append, List.append_assoc]
    have hcons : insertions (if placed w (j + 1) < toUInt p.totalSpheres then []
        else (consolidation N.toNat 0).map (fun c => (s.stage, c))) = [] := by
      split_ifs
      · rfl
      · exact insertions_consolidation _ _ _
    rw [hcons, hins, List.range_succ, List.map_append]
    simp [insertions, hst]
  · simp only [decide_eq_decide]; exact hiff
  · simp only [List.append_assoc, hst]
    congr 2
    by_cases hlt : (placed w (j + 1) : Int) < p.totalSpheres
    · simp [hlt, hiff.2 hlt]
    · have : ¬ placed w (j + 1) < toUInt p.totalSpheres := fun h => hlt (hiff.1 h)
      simp [hlt, this]
  · simp only [insertions_append, List.append_assoc]
    have hcons : insertions (if placed w (j + 1) < toUInt p.totalSpheres then []
        else (consolidation N.toNat 0).map (fun c => (s.stage, c))) = [] := by
      split_ifs
      · rfl
      · exact insertions_consolidation _ _ _
    rw [hcons]
    simp

theorem fillInv_init (p : Params) (w : World)
    (hg0 : ¬ (w.floatAdd p.plane_bottom p.shift_xyz > p.emitterZ)) :
    FillInv p w 0 (fillInit p) :=
  ⟨rfl, rfl, rfl, hg0, rfl, rfl⟩

/-- While every stage generates and the target is ahead, the loop keeps running. -/
theorem generating_run (p : Params) (w : World)
    (h1 : 1 ≤ p.num_template) (h2 : p.num_template < 2 ^ 31)
    (ht1 : 1 ≤ p.totalSpheres) (ht2 : p.totalSpheres < 2 ^ 31)
    (hg0 : ¬ (w.floatAdd p.plane_bottom p.shift_xyz > p.emitterZ))
    (hg : ∀ k, ¬ (w.floatAdd (w.maxZ k) p.shift_xyz > p.emitterZ))
    (hfit : ∀ k, (w.sample k).length < 2 ^ 31) (j : Nat)
    (hbelow : ∀ i, i ≤ j → (placed w i : Int) < p.totalSpheres) :
    ∃ s, fillLoop p w j (fillInit p) = Outcome.unfinished s ∧ FillInv p w j s := by
  induction j with
  | zero => exact ⟨fillInit p, fillLoop_zero p w _ rfl, fillInv_init p w hg0⟩
  | succ j ih =>
    obtain ⟨s, hrun, hinv⟩ := ih (fun i hi => hbelow i (by omega))
    obtain ⟨s', pre, hstage, hinv', hinit, -, -⟩ :=
      generating_step p w 0 h1 h2 ht1 ht2 hg hfit j s hinv (hbelow j (by omega))
        (fun h => absurd (hbelow (j + 1) (Nat.le_refl _)) h)
    have hi : s.initialization = true :=
      (unfinished_below_target p w j (fillInit p) s (toUInt_pos ht1 ht2) hrun).2.2
    have hi' : s'.initialization = true := by
      rw [hinit]; exact decide_eq_true (hbelow (j + 1) (Nat.le_refl _))
    refine ⟨s', ?_, hinv'⟩
    rw [fillLoop_append p w j 1 _ s hrun, fillLoop_succ p w 0 s s' hi hstage]
    exact fillLoop_zero p w s' hi'

/-- The loop exits in the first stage after which the sampled total reaches the target. -/
theorem generating_exit (p : Params) (w : World) (N : Int)
    (h1 : 1 ≤ p.num_template) (h2 : p.num_template < 2 ^ 31)
    (ht1 : 1 ≤ p.totalSpheres) (ht2 : p.totalSpheres < 2 ^ 31)
    (hg0 : ¬ (w.floatAdd p.plane_bottom p.shift_xyz > p.emitterZ))
    (hg : ∀ k, ¬ (w.floatAdd (w.maxZ k) p.shift_xyz > p.emitterZ))
    (hfit : ∀ k, (w.sample k).length < 2 ^ 31)
    (hN : consolidationSteps w p.settle_frame_time = some N) (j : Nat)
    (hbelow : ∀ i, i ≤ j → (placed w i : Int) < p.totalSpheres)
    (hreach : p.totalSpheres ≤ (placed w (j + 1) : Int)) (m : Nat) :
    ∃ s pre, fillLoop p w (j + 1 + m) (fillInit p) = Outcome.done s ∧ FillInv p w (j + 1) s ∧
      s.trace = pre ++ (consolidation N.toNat 0).map (fun c => (j, c)) ∧
      insertions pre = insertions s.trace := by
  obtain ⟨s, hrun, hinv⟩ := generating_run p w h1 h2 ht1 ht2 hg0 hg hfit j hbelow
  obtain ⟨s', pre, hstage, hinv', hinit, htrace, hpre⟩ :=
    generating_step p w N h1 h2 ht1 ht2 hg hfit j s hinv (hbelow j (Nat.le_refl _))
      (fun _ => hN)
  have hi : s.initialization = true :=
    (unfinished_below_target p w j (fillInit p) s (toUInt_pos ht1 ht2) hrun).2.2
  have hnot : ¬ ((placed w (j + 1) : Int) < p.totalSpheres) := by omega
  have hi' : s'.initialization = false := by
    rw [hinit]; exact decide_eq_false hnot
  rw [if_neg hnot] at htrace
  refine ⟨s', pre, ?_, hinv', htrace, hpre⟩
  rw [Nat.add_assoc, fillLoop_append p w j (1 + m) _ s hrun, Nat.add_comm 1 m,
    fillLoop_succ p w m s s' hi hstage]
  exact fillLoop_done p w m s' hi'

/-- C5. If every stage is a generating stage (`plane_bottom + shift_xyz > emitterZ`, the
comparison as the code evaluates it, is false on entry to each) whose batch holds at least
`c ≥ 1` points (and fewer than `2^31`, so that the `unsigned int` counter does not wrap), and
the bound of the consolidation loop is defined, then for every target `1 ≤ totalSpheres` the
loop exits after `n` stages for some `1 ≤ n ≤ ⌈totalSpheres / c⌉`: after each of the first
`n - 1` stages `actualTotalSpheres < totalSpheres` and the loop goes on, and after stage `n`
the loop has exited with `actualTotalSpheres ≥ totalSpheres`. -/
theorem reachable_target_terminates (p : Params) (w : World) (c : Nat) (N : Int)
    (h1 : 1 ≤ p.num_template) (h2 : p.num_template < 2 ^ 31)
    (ht1 : 1 ≤ p.totalSpheres) (ht2 : p.totalSpheres < 2 ^ 31)
    (hg0 : ¬ (w.floatAdd p.plane_bottom p.shift_xyz > p.emitterZ))
    (hg : ∀ k, ¬ (w.floatAdd (w.maxZ k) p.shift_xyz > p.emitterZ))
    (hc : 1 ≤ c) (hgrow : ∀ k, c ≤ (w.sample k).length)
    (hfit : ∀ k, (w.sample k).length < 2 ^ 31)
    (hN : consolidationSteps w p.settle_frame_time = some N) :
    ∃ n, 1 ≤ n ∧ n ≤ (p.totalSpheres.toNat + c - 1) / c ∧
      (∀ j, j < n → ∃ s, fillLoop p w j (fillInit p) = Outcome.unfinished s ∧
        s.stage = j ∧ (s.actualTotalSpheres : Int) < p.totalSpheres) ∧
      (∀ m, ∃ s, fillLoop p w (n + m) (fillInit p) = Outcome.done s ∧
        s.stage = n ∧ p.totalSpheres ≤ (s.actualTotalSpheres : Int) ∧
        s.actualTotalSpheres = placed w n) := by
  have hex : ∃ k, p.totalSpheres ≤ (placed w k : Int) := by
    refine ⟨p.totalSpheres.toNat, ?_⟩
    have := placed_ge w c hgrow p.totalSpheres.toNat
    have : p.totalSpheres.toNat ≤ c * p.totalSpheres.toNat := Nat.le_mul_of_pos_left _ hc
    omega
  classical
  let n := Nat.find hex
  have hn : p.totalSpheres ≤ (placed w n : Int) := Nat.find_spec hex
  have hmin : ∀ i, i < n → (placed w i : Int) < p.totalSpheres := fun i hi =>
    lt_of_not_le (Nat.find_min hex hi)
  have hpos : 1 ≤ n := by
    by_contra h0
    have hz : n = 0 := by omega
    rw [hz] at hn
    simp [placed] at hn
    omega
  obtain ⟨j, hj⟩ : ∃ j, n = j + 1 := ⟨n - 1, by omega⟩
  refine ⟨n, hpos, ?_, ?_, ?_⟩
  · apply Nat.find_min' hex
    have hK := placed_ge w c hgrow ((p.totalSpheres.toNat + c - 1) / c)
    have hdiv : p.totalSpheres.toNat ≤ c * ((p.totalSpheres.toNat + c - 1) / c) := by
      have := Nat.div_add_mod (p.totalSpheres.toNat + c - 1) c
      have := Nat.mod_lt (p.totalSpheres.toNat + c - 1) (by omega : c > 0)
      omega
    omega
  · intro i hi
    obtain ⟨s, hrun, hinv⟩ := generating_run p w h1 h2 ht1 ht2 hg0 hg hfit i
      (fun k hk => hmin k (by omega))
    exact ⟨s, hrun, hinv.1, by rw [hinv.2.1]; exact hmin i hi⟩
  · intro m
    obtain ⟨s, pre, hrun, hinv, -, -⟩ := generating_exit p w N h1 h2 ht1 ht2 hg0 hg hfit hN j
      (fun k hk => hmin k (by omega)) (by rw [← hj]; exact hn) m
    rw [← hj] at hrun hinv
    exact ⟨s, hrun, hinv.1, by rw [hinv.2.1]; exact hn, hinv.2.1⟩

theorem reachable_target_terminates_witness :
    (1 ≤ scenarioB.num_template ∧ scenarioB.num_template < 2 ^ 31 ∧
      1 ≤ scenarioB.totalSpheres ∧ scenarioB.totalSpheres < 2 ^ 31 ∧
      ¬ (worldB.floatAdd scenarioB.plane_bottom scenarioB.shift_xyz > scenarioB.emitterZ) ∧
      (∀ k, ¬ (worldB.floatAdd (worldB.maxZ k) scenarioB.shift_xyz > scenarioB.emitterZ)) ∧
      1 ≤ 20 ∧ (∀ k, 20 ≤ (worldB.sample k).length) ∧
      (∀ k, (worldB.sample k).length < 2 ^ 31) ∧
      consolidationSteps worldB scenarioB.settle_frame_time = some 40) ∧
    ∃ n, 1 ≤ n ∧ n ≤ (scenarioB.totalSpheres.toNat + 20 - 1) / 20 ∧
      (∀ j, j < n → ∃ s, fillLoop scenarioB worldB j (fillInit scenarioB) = Outcome.unfinished s ∧
        s.stage = j ∧ (s.actualTotalSpheres : Int) < scenarioB.totalSpheres) ∧
      (∀ m, ∃ s, fillLoop scenarioB worldB (n + m) (fillInit scenarioB) = Outcome.done s ∧
        s.stage = n ∧ scenarioB.totalSpheres ≤ (s.actualTotalSpheres : Int) ∧
        s.actualTotalSpheres = placed worldB n) :=
  ⟨⟨by decide, by decide, by decide, by decide, by norm_num [scenarioB, worldB],
      fun _ => by norm_num [scenarioB, worldB], by decide,
      fun _ => by simp [worldB], fun _ => by simp [worldB],
      consolidationSteps_demo worldB rfl⟩,
    reachable_target_terminates scenarioB worldB 20 40 (by decide) (by decide) (by decide)
      (by decide) (by norm_num [scenarioB, worldB]) (fun _ => by norm_num [scenarioB, worldB])
      (by decide) (fun _ => by simp [worldB]) (fun _ => by simp [worldB])
      (consolidationSteps_demo worldB rfl)⟩

/-- With 20 points per stage and a target of 50 the loop runs three generating stages. -/
theorem twenty_per_stage_run (p : Params) (w : World) (N : Int)
    (h1 : 1 ≤ p.num_template) (h2 : p.num_template < 2 ^ 31)
    (htot : p.totalSpheres = 50)
    (hg0 : ¬ (w.floatAdd p.plane_bottom p.shift_xyz > p.emitterZ))
    (hg : ∀ k, ¬ (w.floatAdd (w.maxZ k) p.shift_xyz > p.emitterZ))
    (h20 : ∀ k, (w.sample k).length = 20)
    (hN : consolidationSteps w p.settle_frame_time = some N) (m : Nat) :
    ∃ s pre, fillLoop p w (3 + m) (fillInit p) = Outcome.done s ∧ s.stage = 3 ∧
      insertions s.trace = [20, 20, 20] ∧ s.actualTotalSpheres = 60 ∧
      s.trace = pre ++ (consolidation N.toNat 0).map (fun c => (2, c)) ∧
      insertions pre = [20, 20, 20] := by
  have hp : ∀ i, i ≤ 3 → placed w i = 20 * i := by
    intro i hi
    interval_cases i <;> simp [placed, h20]
  obtain ⟨s, pre, hrun, hinv, htrace, hpre⟩ := generating_exit p w N h1 h2
    (by rw [htot]; decide) (by rw [htot]; decide) hg0 hg (fun k => by rw [h20]; decide) hN 2
    (fun i hi => by rw [hp i (by omega), htot]; push_cast; omega)
    (by rw [hp 3 (by omega), htot]; decide) m
  have hins : insertions s.trace = [20, 20, 20] := by
    rw [hinv.2.2.2.2.2]; simp [List.range_succ, h20]
  exact ⟨s, pre, hrun, hinv.1, hins, by rw [hinv.2.1, hp 3 (by omega)], htrace,
    by rw [hpre, hins]⟩

/-- C7 (amended). With target `totalSpheres = 50` and a sampler returning 20 points in every
stage (all stages generating: `plane_bottom + shift_xyz > emitterZ`, the comparison as the
code evaluates it, is false on entry to each; the bound `N` of the consolidation loop
defined), the loop inserts in exactly three stages, with per-stage insertion counts 20, 20
and 20: the batch of the third stage is not cut down to the target, the placed total is 60,
and the run ends with the consolidation calls of the third stage, which insert nothing. -/
theorem scenario_B_three_full_stages (p : Params) (w : World) (N : Int)
    (h1 : 1 ≤ p.num_template) (h2 : p.num_template < 2 ^ 31)
    (htot : p.totalSpheres = 50)
    (hg0 : ¬ (w.floatAdd p.plane_bottom p.shift_xyz > p.emitterZ))
    (hg : ∀ k, ¬ (w.floatAdd (w.maxZ k) p.shift_xyz > p.emitterZ))
    (h20 : ∀ k, (w.sample k).length = 20)
    (hN : consolidationSteps w p.settle_frame_time = some N) (m : Nat) :
    ∃ s pre, fillLoop p w (3 + m) (fillInit p) = Outcome.done s ∧ s.stage = 3 ∧
      insertions s.trace = [20, 20, 20] ∧ s.actualTotalSpheres = 60 ∧
      s.trace = pre ++ (consolidation N.toNat 0).map (fun c => (2, c)) ∧
      insertions pre = [20, 20, 20] ∧
      insertions ((consolidation N.toNat 0).map (fun c => (2, c))) = [] := by
  obtain ⟨s, pre, a, b, c, d, e, f⟩ := twenty_per_stage_run p w N h1 h2 htot hg0 hg h20 hN m
  exact ⟨s, pre, a, b, c, d, e, f, insertions_consolidation _ _ _⟩

theorem scenario_B_three_full_stages_witness :
    (1 ≤ scenarioB.num_template ∧ scenarioB.num_template < 2 ^ 31 ∧
      scenarioB.totalSpheres = 50 ∧
      ¬ (worldB.floatAdd scenarioB.plane_bottom scenarioB.shift_xyz > scenarioB.emitterZ) ∧
      (∀ k, ¬ (worldB.floatAdd (worldB.maxZ k) scenarioB.shift_xyz > scenarioB.emitterZ)) ∧
      (∀ k, (worldB.sample k).length = 20) ∧
      consolidationSteps worldB scenarioB.settle_frame_time = some 40) ∧
    ∃ s pre, fillLoop scenarioB worldB (3 + 0) (fillInit scenarioB) = Outcome.done s ∧
      s.stage = 3 ∧ insertions s.trace = [20, 20, 20] ∧ s.actualTotalSpheres = 60 ∧
      s.trace = pre ++ (consolidation (40 : Int).toNat 0).map (fun c => (2, c)) ∧
      insertions pre = [20, 20, 20] ∧
      insertions ((consolidation (40 : Int).toNat 0).map (fun c => (2, c))) = [] :=
  ⟨⟨by decide, by decide, rfl, by norm_num [scenarioB, worldB],
      fun _ => by norm_num [scenarioB, worldB], fun _ => by simp [worldB],
      consolidationSteps_demo worldB rfl⟩,
    scenario_B_three_full_stages scenarioB worldB 40 (by decide) (by decide) rfl
      (by norm_num [scenarioB, worldB]) (fun _ => by norm_num [scenarioB, worldB])
      (fun _ => by simp [worldB]) (consolidationSteps_demo worldB rfl) 0⟩

/-- C7 as stated fails: in Scenario B (target 50, 20 points per stage) the three stages
insert 20, 20 and 20 instances, not 20, 20 and 10, and the placed total is 60, above the
target. -/
theorem scenario_B_counterexample :
    ∃ s, fillLoop scenarioB worldB 3 (fillInit scenarioB) = Outcome.done s ∧
      insertions s.trace = [20, 20, 20] ∧ insertions s.trace ≠ [20, 20, 10] ∧
      s.actualTotalSpheres = 60 ∧ ¬ ((s.actualTotalSpheres : Int) ≤ scenarioB.totalSpheres) := by
  obtain ⟨s, pre, a, -, c, d, -, -⟩ := twenty_per_stage_run scenarioB worldB 40 (by decide)
    (by decide) rfl (by norm_num [scenarioB, worldB]) (fun _ => by norm_num [scenarioB, worldB])
    (fun _ => by simp [worldB]) (consolidationSteps_demo worldB rfl) 0
  refine ⟨s, a, c, by rw [c]; decide, d, ?_⟩
  rw [d]; decide

/-! ### Staged loop: the settle-only phase -/

theorem generateBlock_trace (p : Params) (w : World) (s s1 : FillState)
    (h : generateBlock p w s = Except.ok s1) :
    ∃ ev : List Call, ev.count (Call.DoDynamicsThenSync Duration.settle_frame_time) = 0 ∧
      s1.trace = s.trace ++ ev.map (fun c => (s.stage, c)) ∧ s1.stage = s.stage ∧
      s1.frame = s.frame := by
  unfold generateBlock at h
  simp only at h
  split at h
  · exact absurd h (by simp)
  · rename_i l _
    split at h
    · exact absurd h (by simp)
    · injection h with h
      subst h
      exact ⟨[Call.SampleBox (w.sample s.stage), Call.AddClumps l (w.sample s.stage),
        Call.UpdateClumps, Call.GetNumClumps, Call.GetNumClumps], by simp [List.count_cons],
        by simp [FillState.log], rfl, rfl⟩

/-- The calls of one stage: a body with a single settle call, followed by the
consolidation calls exactly when the stage ends the loop. -/
theorem stage_trace_shape (p : Params) (w : World) (s s' : FillState)
    (h : stage p w s = Except.ok s') :
    ∃ (body : List Call) (N : Int),
      body.count (Call.DoDynamicsThenSync Duration.settle_frame_time) = 1 ∧
      (s'.initialization = false → consolidationSteps w p.settle_frame_time = some N) ∧
      s'.trace = s.trace ++ (body ++
        (if s'.initialization = false then consolidation N.toNat 0 else [])).map
        (fun c => (s.stage, c)) := by
  obtain ⟨s1, s2, h1, h2, rfl⟩ := stage_ok p w s s' h
  obtain ⟨-, -, -, -, N, hN, htr2⟩ := settleBlock_ok p w _ s1 s2 h2
  by_cases hg : generate p w (s.log [Call.ClearCache]) = true
  · rw [if_pos hg] at h1
    obtain ⟨ev, hev, htr, hst, hfr⟩ := generateBlock_trace p w _ s1 h1
    refine ⟨[Call.ClearCache] ++ ev ++ ([Call.GetMaxZ] ++
      [Call.WriteSphereFile FileKind.settling s1.frame] ++
      [Call.DoDynamicsThenSync Duration.settle_frame_time, Call.GetMaxZ]), N, ?_, hN, ?_⟩
    · simp [List.count_append, hev, List.count_cons]
    · show s2.trace = _
      rw [if_pos hg] at htr2
      rw [htr2, htr, hst]
      simp [FillState.log]
  · rw [if_neg hg] at h1
    injection h1 with h1
    subst h1
    refine ⟨[Call.ClearCache] ++ ([Call.GetMaxZ] ++
      [Call.DoDynamicsThenSync Duration.settle_frame_time, Call.GetMaxZ]), N, by decide, hN, ?_⟩
    show s2.trace = _
    rw [if_neg hg] at htr2
    rw [htr2]
    simp [FillState.log]

theorem settleCalls_append (j : Nat) (t u : List (Nat × Call)) :
    settleCalls j (t ++ u) = settleCalls j t + settleCalls j u := by
  simp [settleCalls, List.count_append]

theorem settleCalls_map (j k : Nat) (l : List Call) :
    settleCalls j (l.map (fun c => (k, c)))
      = if j = k then l.count (Call.DoDynamicsThenSync Duration.settle_frame_time) else 0 := by
  induction l with
  | nil => simp [settleCalls]
  | cons c l ih =>
    simp only [settleCalls, List.map_cons, List.count_cons] at ih ⊢
    rw [ih]
    by_cases hjk : j = k
    · subst hjk
      by_cases hc : c = Call.DoDynamicsThenSync Duration.settle_frame_time <;> simp [hc]
    · have : ¬ ((k, c) == (j, Call.DoDynamicsThenSync Duration.settle_frame_time)) = true := by
        simp; intro h; exact absurd h.symm hjk
      simp [hjk, this]

/-- While the loop is running, every completed stage has made exactly one settle call. -/
theorem run_settleCalls (p : Params) (w : World) (n : Nat) :
    ∀ s0 s : FillState, fillLoop p w n s0 = Outcome.unfinished s →
      ∀ j, settleCalls j s.trace
        = settleCalls j s0.trace + (if s0.stage ≤ j ∧ j < s0.stage + n then 1 else 0) := by
  induction n with
  | zero =>
    intro s0 s h j
    obtain ⟨rfl, _⟩ := fillLoop_unfinished_zero p w s0 s h
    simp
  | succ n ih =>
    intro s0 s h j
    obtain ⟨s1, hi, hs, hrest⟩ := fillLoop_unfinished_succ p w n s0 s h
    have hinit : s1.initialization = true := by
      by_contra hc
      rw [fillLoop_done p w n s1 (by simpa using hc)] at hrest
      exact absurd hrest (by simp)
    obtain ⟨body, N, hbody, -, htr⟩ := stage_trace_shape p w s0 s1 hs
    have hst := stage_stage p w s0 s1 hs
    rw [ih s1 s hrest j, htr, settleCalls_append, settleCalls_map, hst]
    simp only [hinit, Bool.true_eq_false, if_false, List.append_nil, hbody]
    by_cases hj : j = s0.stage
    · subst hj; simp
    · rw [if_neg hj]
      have : (s0.stage + 1 ≤ j ∧ j < s0.stage + 1 + n) ↔ (s0.stage ≤ j ∧ j < s0.stage + (n + 1)) := by
        omega
      simp only [this, Nat.add_zero]

/-- Truncation of a value within `ε` of `e`, when `e` is that far inside `[n, n + 1)`. -/
theorem truncate_window (x e ε : ℚ) (n : Int) (h1 : (n : ℚ) ≤ e - ε)
    (h2 : e + ε < n + 1) (hx : |x - e| ≤ ε) (hn : 0 ≤ n) :
    truncate x = n := by
  have hb := abs_le.mp hx
  have hn' : (0 : ℚ) ≤ n := by exact_mod_cast hn
  exact truncate_eq x n (by linarith) (by linarith) (by linarith)

/-- C9. Let stage `n` be the stage after which `actualTotalSpheres ≥ totalSpheres` (the loop
is still running after `n` stages and the next stage ends at or above the target). Then the
loop exits right after that stage; every earlier stage ended below the target and made one
settle call only, so the settle-only phase ran in none of them; stage `n` ends with the
settle-only phase, which is `N` calls `DoDynamicsThenSync(settle_frame_time)`, each followed
by a snapshot write, with no sampling and no `AddClumps` among them. Here `N` is
`(int)(0.4 / settle_frame_time)`: with `q` the `double` quotient of the literal `0.4` by
`settle_frame_time`, `N` is an `int`, the integer with `N ≤ q < N + 1` when `q ≥ 0` and with
`N - 1 < q ≤ N` when `q ≤ 0`; so `N` is the integer part `M ≥ 0` of the exact quotient
`0.4 / settle_frame_time` whenever `q` is within some `ε` of the exact quotient and the exact
quotient is at least `ε` inside `[M, M + 1)`. For the demo's `float settle_frame_time = 0.01`
and a quotient `q` within `2 ^ -40` of the exact one, `N = 40`; for the `float` nearest to
`0.1` it is `3`.
And the calls between the two loops insert nothing. -/
theorem settle_phase_once (p : Params) (w : World) (n : Nat) (s s' : FillState)
    (hrun : fillLoop p w n (fillInit p) = Outcome.unfinished s)
    (hstage : stage p w s = Except.ok s')
    (hfull : toUInt p.totalSpheres ≤ s'.actualTotalSpheres) :
    (∀ m, fillLoop p w (n + 1 + m) (fillInit p) = Outcome.done s') ∧
    (∀ j, 1 ≤ j → j ≤ n → ∃ sj, fillLoop p w j (fillInit p) = Outcome.unfinished sj ∧
      sj.actualTotalSpheres < toUInt p.totalSpheres) ∧
    (∀ j, j < n → settleCalls j s'.trace = 1) ∧
    (∃ N : Int, consolidationSteps w p.settle_frame_time = some N ∧
      p.settle_frame_time ≠ 0 ∧ InInt N ∧
      (0 ≤ w.doubleDiv double04 p.settle_frame_time →
        (N : ℚ) ≤ w.doubleDiv double04 p.settle_frame_time ∧
        w.doubleDiv double04 p.settle_frame_time < N + 1) ∧
      (w.doubleDiv double04 p.settle_frame_time ≤ 0 →
        w.doubleDiv double04 p.settle_frame_time ≤ N ∧
        (N : ℚ) - 1 < w.doubleDiv double04 p.settle_frame_time) ∧
      (∀ (M : Int) (ε : ℚ), 0 ≤ M →
        |w.doubleDiv double04 p.settle_frame_time - double04 / p.settle_frame_time| ≤ ε →
        (M : ℚ) ≤ double04 / p.settle_frame_time - ε →
        double04 / p.settle_frame_time + ε < M + 1 → N = M) ∧
      (p.settle_frame_time = float001 →
        |w.doubleDiv double04 p.settle_frame_time - double04 / p.settle_frame_time|
          ≤ 1 / 2 ^ 40 →
        N = 40) ∧
      (p.settle_frame_time = float01 →
        |w.doubleDiv double04 p.settle_frame_time - double04 / p.settle_frame_time|
          ≤ 1 / 2 ^ 40 →
        N = 3) ∧
      (∃ body : List Call,
        body.count (Call.DoDynamicsThenSync Duration.settle_frame_time) = 1 ∧
        s'.trace = s.trace ++ (body ++ consolidation N.toNat 0).map (fun c => (n, c))) ∧
      (consolidation N.toNat 0).count (Call.DoDynamicsThenSync Duration.settle_frame_time)
        = N.toNat ∧
      (∀ c ∈ consolidation N.toNat 0,
        c = Call.DoDynamicsThenSync Duration.settle_frame_time ∨
        ∃ k : Int, c = Call.WriteSphereFile FileKind.settling k)) ∧
    (∀ c ∈ interlude, ∀ l xyz, c ≠ Call.AddClumps l xyz) := by
  have hi' : s'.initialization = false := by
    rw [stage_initialization p w s s' hstage]
    exact decide_eq_false (by omega)
  obtain ⟨hsi, hsst0, _⟩ := unfinished_state p w n (fillInit p) s hrun
  have hsst : s.stage = n := by rw [hsst0]; simp [fillInit]
  obtain ⟨body, N, hbody, hN, htr⟩ := stage_trace_shape p w s s' hstage
  have hN := hN hi'
  obtain ⟨hs0, hNq, hNr⟩ := consolidationSteps_some w p.settle_frame_time N hN
  refine ⟨?_, ?_, ?_, ⟨N, hN, hs0, hNr, ?_, ?_, ?_, ?_, ?_, ⟨body, hbody, ?_⟩,
    count_settle_consolidation _ _, mem_consolidation _ _⟩, ?_⟩
  · intro m
    rw [Nat.add_assoc, fillLoop_append p w n (1 + m) _ s hrun, Nat.add_comm 1 m,
      fillLoop_succ p w m s s' hsi hstage]
    exact fillLoop_done p w m s' hi'
  · intro j hj1 hjn
    obtain ⟨sj, hsj⟩ := fillLoop_truncate p w j (n - j) (fillInit p) s (by
      rw [Nat.add_sub_cancel' hjn]; exact hrun)
    exact ⟨sj, hsj, (unfinished_state p w j (fillInit p) sj hsj).2.2 (by omega)⟩
  · intro j hj
    rw [htr, settleCalls_append, settleCalls_map, hsst, if_neg (by omega),
      run_settleCalls p w n (fillInit p) s hrun j]
    simp [settleCalls, fillInit, hj]
  · intro h
    rw [hNq]; exact truncate_nonneg _ h
  · intro h
    rw [hNq]; exact truncate_nonpos _ h
  · intro M ε hM hq h1 h2
    rw [hNq]
    exact truncate_window _ _ ε M h1 h2 hq hM
  · intro h hq
    rw [hNq]
    rw [h] at hq ⊢
    exact truncate_window _ _ _ 40 (by norm_num [double04, float001])
      (by norm_num [double04, float001]) hq (by norm_num)
  · intro h hq
    rw [hNq]
    rw [h] at hq ⊢
    exact truncate_window _ _ _ 3 (by norm_num [double04, float01])
      (by norm_num [double04, float01]) hq (by norm_num)
  · rw [htr, hsst]
    simp [hi']
  · intro c hc l xyz
    simp only [interlude, List.mem_singleton] at hc
    rw [hc]; simp

theorem settle_phase_once_witness :
    ∃ s s', (fillLoop scenarioB worldB 2 (fillInit scenarioB) = Outcome.unfinished s ∧
        stage scenarioB worldB s = Except.ok s' ∧
        toUInt scenarioB.totalSpheres ≤ s'.actualTotalSpheres) ∧
      (∀ m, fillLoop scenarioB worldB (2 + 1 + m) (fillInit scenarioB) = Outcome.done s') ∧
      settleCalls 0 s'.trace = 1 ∧ settleCalls 1 s'.trace = 1 ∧
      consolidationSteps worldB scenarioB.settle_frame_time = some 40 ∧
      ∃ body : List Call,
        body.count (Call.DoDynamicsThenSync Duration.settle_frame_time) = 1 ∧
        s'.trace = s.trace ++ (body ++ consolidation 40 0).map (fun c => (2, c)) := by
  have hg0 : ¬ (worldB.floatAdd scenarioB.plane_bottom scenarioB.shift_xyz
      > scenarioB.emitterZ) := by
    norm_num [scenarioB, worldB]
  have hg : ∀ k, ¬ (worldB.floatAdd (worldB.maxZ k) scenarioB.shift_xyz
      > scenarioB.emitterZ) :=
    fun _ => by norm_num [scenarioB, worldB]
  have hfit : ∀ k, (worldB.sample k).length < 2 ^ 31 := fun _ => by simp [worldB]
  have hp : ∀ i, i ≤ 3 → placed worldB i = 20 * i := by
    intro i hi
    interval_cases i <;> simp [placed, worldB]
  have hbelow : ∀ i, i ≤ 2 → (placed worldB i : Int) < scenarioB.totalSpheres := by
    intro i hi
    rw [hp i (by omega)]
    have : scenarioB.totalSpheres = 50 := rfl
    rw [this]; push_cast; omega
  have hN40 : consolidationSteps worldB scenarioB.settle_frame_time = some 40 :=
    consolidationSteps_demo worldB rfl
  obtain ⟨s, hrun, hinv⟩ := generating_run scenarioB worldB (by decide) (by decide)
    (by decide) (by decide) hg0 hg hfit 2 hbelow
  obtain ⟨s', pre, hstage, hinv', -, -, -⟩ := generating_step scenarioB worldB 40 (by decide)
    (by decide) (by decide) (by decide) hg hfit 2 s hinv (hbelow 2 (Nat.le_refl _))
    (fun _ => hN40)
  have hfull : toUInt scenarioB.totalSpheres ≤ s'.actualTotalSpheres := by
    rw [hinv'.2.1, hp 3 (Nat.le_refl _)]; decide
  obtain ⟨h1, -, h3, ⟨N, hN, -, -, -, -, -, -, -, hbody, -, -⟩, -⟩ :=
    settle_phase_once scenarioB worldB 2 s s' hrun hstage hfull
  have hN' : N = 40 := by
    rw [hN40] at hN; exact (Option.some.inj hN).symm
  subst hN'
  exact ⟨s, s', ⟨hrun, hstage, hfull⟩, h1, h3 0 (by omega), h3 1 (by omega), hN40, hbody⟩

end GranularFlow

/-! ## Theorems: contact wildcard bring-up -/

namespace MooringBoxMotion

/-- C3 (amended). In the bring-up trace the six zeroing calls come first, exactly one
`DoDynamicsThenSync(0)` lies between the last zeroing call and the first activation call,
no synchronization call lies between the last activation call and the first persistence
call (the only call there is a `GetNumContacts` query), and the second
`DoDynamicsThenSync(0)` comes right after the last persistence call. -/
theorem bringUp_phase_order :
    positions isZeroing bringUp = List.range 6 ∧
    positions isActivation bringUp = [8, 9, 10] ∧
    positions isPersistence bringUp = [12, 13, 14] ∧
    between isZeroing isActivation isSync bringUp = [7] ∧
    between isActivation isPersistence isSync bringUp = [] ∧
    bringUp.get? 11 = some Call.GetNumContacts ∧
    positions isSync bringUp = [7, 15] := by
  decide

/-- C3 as stated fails: no `DoDynamicsThenSync(0)` lies after the last activation call
(position 10) and before the first persistence call (position 12). -/
theorem bringUp_no_sync_before_persist_counterexample :
    ¬ ∃ k, k < bringUp.length ∧ (bringUp.get? k).map isSync = some true ∧
      (∀ i ∈ positions isActivation bringUp, i < k) ∧
      (∀ j ∈ positions isPersistence bringUp, k < j) := by
  rintro ⟨k, hk, hs, ha, hp⟩
  have h1 : positions isActivation bringUp = [8, 9, 10] := by decide
  have h2 : positions isPersistence bringUp = [12, 13, 14] := by decide
  have hk1 : 10 < k := ha 10 (by rw [h1]; simp)
  have hk2 : k < 12 := hp 12 (by rw [h2]; simp)
  have hk3 : k = 11 := by omega
  subst hk3
  revert hs
  decide
/-! ### Prescribed orientation of family 3 -/

theorem continuous_gauss : Continuous (fun u : ℝ => Real.exp (-u ^ 2)) := by
  fun_prop

theorem erf_zero : erf 0 = 0 := by
  simp [erf]

/-- The error function is strictly increasing. -/
theorem erf_strictMono : StrictMono erf := by
  intro a b hab
  have hc : (0 : ℝ) < 2 / Real.sqrt Real.pi :=
    div_pos (by norm_num) (Real.sqrt_pos.2 Real.pi_pos)
  have hsub : (∫ u in (0 : ℝ)..b, Real.exp (-u ^ 2)) - ∫ u in (0 : ℝ)..a, Real.exp (-u ^ 2)
      = ∫ u in a..b, Real.exp (-u ^ 2) :=
    intervalIntegral.integral_interval_sub_left (continuous_gauss.intervalIntegrable 0 b)
      (continuous_gauss.intervalIntegrable 0 a)
  have hpos : 0 < ∫ u in a..b, Real.exp (-u ^ 2) :=
    intervalIntegral.intervalIntegral_pos_of_pos_on (continuous_gauss.intervalIntegrable a b)
      (fun u _ => Real.exp_pos _) hab
  have hlt : (∫ u in (0 : ℝ)..a, Real.exp (-u ^ 2)) < ∫ u in (0 : ℝ)..b, Real.exp (-u ^ 2) := by
    linarith
  exact mul_lt_mul_of_pos_left hlt hc

theorem erf_pos {x : ℝ} (hx : 0 < x) : 0 < erf x := by
  have := erf_strictMono hx
  rwa [erf_zero] at this

/-- For `x ≥ 0`, `erf x ≤ 1`: the integral is at most the Gaussian integral over the
half line. -/
theorem erf_le_one {x : ℝ} (hx : 0 ≤ x) : erf x ≤ 1 := by
  have hsq : 0 < Real.sqrt Real.pi := Real.sqrt_pos.2 Real.pi_pos
  have hfun : (fun u : ℝ => Real.exp (-u ^ 2)) = fun u : ℝ => Real.exp (-1 * u ^ 2) := by
    funext u; simp
  have hint : MeasureTheory.Integrable (fun u : ℝ => Real.exp (-u ^ 2)) := by
    rw [hfun]; exact integrable_exp_neg_mul_sq (by norm_num)
  have hgauss : ∫ u in Set.Ioi (0 : ℝ), Real.exp (-u ^ 2) = Real.sqrt Real.pi / 2 := by
    rw [hfun, integral_gaussian_Ioi 1]; simp
  have hle : ∫ u in (0 : ℝ)..x, Real.exp (-u ^ 2) ≤ Real.sqrt Real.pi / 2 := by
    rw [intervalIntegral.integral_of_le hx, ← hgauss]
    refine MeasureTheory.setIntegral_mono_set hint.integrableOn ?_ ?_
    · exact Filter.Eventually.of_forall (fun u => (Real.exp_pos _).le)
    · exact Filter.Eventually.of_forall (fun u hu => hu.1)
  have : erf x ≤ 2 / Real.sqrt Real.pi * (Real.sqrt Real.pi / 2) :=
    mul_le_mul_of_nonneg_left hle (div_pos (by norm_num) hsq).le
  have heq : 2 / Real.sqrt Real.pi * (Real.sqrt Real.pi / 2) = 1 := by
    field_simp
  rwa [heq] at this
theorem sq_sin_lt_sq_sin {a b : ℝ} (hab : |b| < |a|) (ha : |a| ≤ Real.pi / 2) :
    Real.sin b ^ 2 < Real.sin a ^ 2 := by
  have hpi : 0 < Real.pi := Real.pi_pos
  have h1 : Real.sin |b| < Real.sin |a| :=
    Real.sin_lt_sin_of_lt_of_le_pi_div_two (by linarith [abs_nonneg b]) ha hab
  have h0 : 0 ≤ Real.sin |b| :=
    Real.sin_nonneg_of_nonneg_of_le_pi (abs_nonneg b) (by linarith)
  have ha' : Real.sin a ^ 2 = Real.sin |a| ^ 2 := by
    rcases abs_choice a with h | h
    · rw [h]
    · rw [h, Real.sin_neg, neg_sq]
  have hb' : Real.sin b ^ 2 = Real.sin |b| ^ 2 := by
    rcases abs_choice b with h | h
    · rw [h]
    · rw [h, Real.sin_neg, neg_sq]
  rw [ha', hb']
  exact pow_lt_pow_left₀ h1 h0 (by norm_num)

/-- Away from `t = 0` and from the zeros of `sin(2π t / 1.6)` the prescribed quaternion is
longer than a unit quaternion. -/
theorem normSq_gt_one {t : ℝ} (ht : 0 < t)
    (hs : Real.sin (2 * Real.pi * 1 / 1.6 * t) ≠ 0) :
    1 < normSq (prescribedQuaternion t) := by
  have hpi : 0 < Real.pi := Real.pi_pos
  set S := Real.sin (2 * Real.pi * 1 / 1.6 * t) with hS
  have hSabs : 0 < |S| := abs_pos.2 hs
  have hS1 : |S| ≤ 1 := Real.abs_sin_le_one _
  have h2 : (0 : ℝ) < Real.sqrt 2 := Real.sqrt_pos.2 (by norm_num)
  have h5 : (0 : ℝ) < Real.sqrt 5 := Real.sqrt_pos.2 (by norm_num)
  have h25 : Real.sqrt 2 < Real.sqrt 5 := Real.sqrt_lt_sqrt (by norm_num) (by norm_num)
  have hx5 : 0 < t / Real.sqrt 5 := div_pos ht h5
  have hx : t / Real.sqrt 5 < t / Real.sqrt 2 := div_lt_div_of_pos_left ht h2 h25
  have hE5 : 0 < erf (t / Real.sqrt 5) := erf_pos hx5
  have hE : erf (t / Real.sqrt 5) < erf (t / Real.sqrt 2) := erf_strictMono hx
  have hE2 : erf (t / Real.sqrt 2) ≤ 1 := erf_le_one (div_pos ht h2).le
  have habs : ∀ E : ℝ, 0 < E → |E * Real.pi / 29 * S| = E * (Real.pi / 29 * |S|) := by
    intro E hE0
    rw [abs_mul, abs_div, abs_mul, abs_of_pos hE0, abs_of_pos hpi]
    norm_num
    ring
  have hk : 0 < Real.pi / 29 * |S| := by positivity
  have hlt : |erf (t / Real.sqrt 5) * Real.pi / 29 * S|
      < |erf (t / Real.sqrt 2) * Real.pi / 29 * S| := by
    rw [habs _ hE5, habs _ (lt_trans hE5 hE)]
    exact mul_lt_mul_of_pos_right hE hk
  have hle : |erf (t / Real.sqrt 2) * Real.pi / 29 * S| ≤ Real.pi / 2 := by
    rw [habs _ (lt_trans hE5 hE)]
    have h1 : Real.pi / 29 * |S| ≤ Real.pi / 29 := by
      have : Real.pi / 29 * |S| ≤ Real.pi / 29 * 1 :=
        mul_le_mul_of_nonneg_left hS1 (by positivity)
      linarith
    have h2' : erf (t / Real.sqrt 2) * (Real.pi / 29 * |S|) ≤ 1 * (Real.pi / 29) :=
      mul_le_mul hE2 h1 hk.le (by norm_num)
    linarith
  have hsin := sq_sin_lt_sq_sin hlt hle
  have hcs := Real.sin_sq_add_cos_sq (erf (t / Real.sqrt 5) * Real.pi / 29 * S)
  simp only [normSq, prescribedQuaternion]
  rw [← hS]
  nlinarith [hsin, hcs]

/-- Where `sin(2π t / 1.6)` vanishes both angles are zero and the quaternion is the
identity. -/
theorem normSq_eq_one_of_sin_eq_zero {t : ℝ}
    (hs : Real.sin (2 * Real.pi * 1 / 1.6 * t) = 0) :
    normSq (prescribedQuaternion t) = 1 := by
  simp only [normSq, prescribedQuaternion, hs]
  simp

theorem prescribedQuaternion_zero :
    (prescribedQuaternion 0).x = 0 ∧ (prescribedQuaternion 0).y = 0 ∧
    (prescribedQuaternion 0).z = 0 ∧ (prescribedQuaternion 0).w = 1 := by
  simp [prescribedQuaternion, erf_zero]

/-- C13 (what the code does). The prescribed quaternion is the identity `(0,0,0,1)` at
`t = 0`, but it is not a unit quaternion for every `t ≥ 0`: its `y` component uses
`erf(t/sqrt(2))` and its `w` component `erf(t/sqrt(5))`, and at `t = 0.4` (more generally at
every `t > 0` with `sin(2π t / 1.6) ≠ 0`) the sum of the squares of the components is larger
than 1; where `sin(2π t / 1.6) = 0` it is 1. -/
theorem prescribed_quaternion_not_unit :
    (prescribedQuaternion 0).x = 0 ∧ (prescribedQuaternion 0).y = 0 ∧
    (prescribedQuaternion 0).z = 0 ∧ (prescribedQuaternion 0).w = 1 ∧
    1 < normSq (prescribedQuaternion (2 / 5)) ∧
    (∀ t : ℝ, 0 < t → Real.sin (2 * Real.pi * 1 / 1.6 * t) ≠ 0 →
      1 < normSq (prescribedQuaternion t)) ∧
    (∀ t : ℝ, Real.sin (2 * Real.pi * 1 / 1.6 * t) = 0 →
      normSq (prescribedQuaternion t) = 1) := by
  obtain ⟨hx, hy, hz, hw⟩ := prescribedQuaternion_zero
  refine ⟨hx, hy, hz, hw, ?_, fun t ht hs => normSq_gt_one ht hs,
    fun t hs => normSq_eq_one_of_sin_eq_zero hs⟩
  apply normSq_gt_one (by norm_num)
  have : (2 * Real.pi * 1 / 1.6 * (2 / 5) : ℝ) = Real.pi / 2 := by
    norm_num
    ring
  rw [this, Real.sin_pi_div_two]
  norm_num

end MooringBoxMotion
